import Mathlib

/-!
Verification of the genderify artist-resolution engine
(`genderify/gender_finder.py`) against its specification.

The Python code is shallowly embedded: the `Genderifier` object state is the
`GState` structure, the network is a `World` function from URLs to responses,
HTML soups are records carrying exactly the fields the code reads, and the
mutually recursive `genderise` / group-expansion pair is a fuel-indexed
function (fuel 2 is shown sufficient, which is the one-level group bound).
Python exceptions are `Except Unit`; Python list slicing (including its
negative-index wrap-around) is modelled exactly by `pySlice`.
-/

/-- Python `list[a:b]` index normalisation: a negative index counts from the
end of the list (wraps), then both ends are clamped into `[0, len]`. -/
def pySliceIdx (len : Nat) (i : Int) : Nat :=
  if i < 0 then (max 0 ((len : Int) + i)).toNat else min i.toNat len

/-- Python `l[a:b]` slice semantics (step 1). Negative indices wrap to
`len + i`; an empty slice results when the normalised start is at or past
the normalised end. -/
def pySlice {α : Type} (l : List α) (a b : Int) : List α :=
  let s := pySliceIdx l.length a
  let e := pySliceIdx l.length b
  (l.drop s).take (e - s)

/-- Python `s.split(' ')`: split on every single space, keeping empty
pieces (structurally recursive so that proofs can evaluate it). -/
def splitCharAux (sep : Char) : List Char → List Char → List String
  | [], acc => [String.mk acc.reverse]
  | x :: xs, acc =>
    if x == sep then String.mk acc.reverse :: splitCharAux sep xs []
    else splitCharAux sep xs (x :: acc)

/-- Python `s.split(sep)` for a one-character separator. -/
def pySplitChar (sep : Char) (s : String) : List String := splitCharAux sep s.toList []

/-- Python `s.replace(old, new)` for one-character old and new. -/
def charReplace (old new : Char) (s : String) : String :=
  String.mk (s.toList.map (fun c => if c == old then new else c))

/-- Python `s.strip()` (ASCII whitespace fragment). -/
def pyStrip (s : String) : String :=
  String.mk (((s.toList.dropWhile Char.isWhitespace).reverse.dropWhile Char.isWhitespace).reverse)

/-- Python `str.lower()` (ASCII fragment used by the code). -/
def strLower (s : String) : String := String.mk (s.toList.map Char.toLower)

/-- Boolean list-infix test (needle occurs contiguously in the haystack). -/
def listIsInfixB {α : Type} [BEq α] : List α → List α → Bool
  | needle, [] => needle.isEmpty
  | needle, a :: t => List.isPrefixOf needle (a :: t) || listIsInfixB needle t

/-- Python `needle in hay` on strings. -/
def strInfix (needle hay : String) : Bool := listIsInfixB needle.toList hay.toList

/-- Python regex `\w` on the ASCII fragment: letters, digits, underscore. -/
def isWordChar (c : Char) : Bool := c.isAlphanum || c == '_'

/-- One token's normalisation in `_get_gender_and_context`:
`word.lower()` then `re.sub(r'[^\w]', '', word)`. -/
def normalizeWord (w : String) : String :=
  String.mk ((w.toList.map Char.toLower).filter (fun c => isWordChar c))

/-- The module-level `PRONOUN_MAP` dict of `gender_finder.py`. -/
def PRONOUN_MAP (w : String) : Option String :=
  if w == "their" then some "nonbinary"
  else if w == "they" then some "nonbinary"
  else if w == "them" then some "nonbinary"
  else if w == "her" then some "female"
  else if w == "she" then some "female"
  else if w == "his" then some "male"
  else if w == "him" then some "male"
  else if w == "he" then some "male"
  else none

/-- The pronoun list scanned for inside `_get_gender_and_context`. -/
def pronounList : List String :=
  ["his", "her", "their", "he", "she", "they", "them", "him"]

/-- The `for ix, word in enumerate(words)` scan: first word whose
normalisation is a pronoun, returned with its index. -/
def scanPronoun : List String → Nat → Option (String × Nat)
  | [], _ => none
  | w :: rest, ix =>
    let w' := normalizeWord w
    if pronounList.contains w' then some (w', ix)
    else scanPronoun rest (ix + 1)

/-- `Genderifier._get_gender_and_context`: split the corpus on single
spaces, find the first pronoun, map it through `PRONOUN_MAP`, and join
`words[ix - 5:ix + 5]` (Python slice semantics) as the context. -/
def get_gender_and_context (corpus : String) : Option String × Option String :=
  let words := pySplitChar ' ' corpus
  match scanPronoun words 0 with
  | some (p, ix) =>
    (PRONOUN_MAP p,
     some (String.intercalate " " (pySlice words ((ix : Int) - 5) ((ix : Int) + 5))))
  | none => (none, none)

/-- `Artist` namedtuple. -/
structure Artist where
  name : String
  spotify_id : Option String
  wiki_url : Option String
  lastfm_url : Option String
deriving DecidableEq

/-- `MemberResults` namedtuple. -/
structure MemberResults where
  nonbinary : Nat
  female : Nat
  male : Nat
  unknown : Nat
  names : String
deriving DecidableEq

/-- The all-zero distribution `MemberResults(0, 0, 0, 0, "")` that `store`
substitutes for a falsy `members` argument. -/
def emptyMembers : MemberResults :=
  { nonbinary := 0, female := 0, male := 0, unknown := 0, names := "" }

/-- One row of the `artists` table (the id column is dropped on read). -/
structure StoredRow where
  artist : Artist
  context : Option String
  gender : Option String
  is_group : Bool
  lead : Option String
  members : MemberResults
deriving DecidableEq

/-- `DBRow` namedtuple. `members` is `none` exactly where the code passes
Python `None` (the unresolved in-memory row built in `genderise`). -/
structure DBRow where
  artist : Artist
  context : Option String
  gender : Option String
  is_group : Bool
  lead : Option String
  members : Option MemberResults
deriving DecidableEq

/-- The `self._report` dict: the set of artists seen plus the four
per-gender running totals. -/
structure Report where
  artists : List Artist
  nonbinary : Nat
  female : Nat
  male : Nat
  unknown : Nat
deriving DecidableEq

def emptyReport : Report :=
  { artists := [], nonbinary := 0, female := 0, male := 0, unknown := 0 }

/-- `self._report[key] += 1`. The fallthrough branch is unreachable: every
gender key fed to the report is a `PRONOUN_MAP` label or `"unknown"`. -/
def bumpReport (rep : Report) (key : String) : Report :=
  if key == "nonbinary" then { rep with nonbinary := rep.nonbinary + 1 }
  else if key == "female" then { rep with female := rep.female + 1 }
  else if key == "male" then { rep with male := rep.male + 1 }
  else if key == "unknown" then { rep with unknown := rep.unknown + 1 }
  else rep

/-- `Genderifier.add_to_report`. Note the faithful transcription of the
code: membership in `self._report['artists']` is checked, but no artist is
ever inserted into that set. -/
def add_to_report (rep : Report) (row : DBRow) : Report :=
  if rep.artists.contains row.artist then rep
  else if !row.is_group then
    bumpReport rep
      (match row.gender with
       | none => "unknown"
       | some g => if g == "" then "unknown" else g)
  else
    let m := row.members.getD emptyMembers
    { rep with
      nonbinary := rep.nonbinary + m.nonbinary
      female := rep.female + m.female
      male := rep.male + m.male
      unknown := rep.unknown + m.unknown }

/-- An in-page link, as consumed from `soup.find_all('a')`. -/
structure Link where
  text : String
  href : String
deriving DecidableEq

/-- A parsed HTML page ("soup"). HTML parsing is an external collaborator,
so a soup is modelled as the record of exactly the queries the engine runs
on it: the full page text, the wiki infobox row headers
(`table.infobox tr th[scope="row"]` texts), the Last.fm factbox headers
(`li.factbox-item h4` texts), the paragraph texts (`p` for wiki,
`div.wiki-content p` for Last.fm), the page links, and the member lists
that `_wiki_get_group_members` / `_lastfm_get_group_members` extract from
the structural Members cell (the li/anchor traversal is collapsed into the
resulting `Artist` list, URLs pre-seeded as in the code). -/
structure Soup where
  text : String
  infobox_rows : List String
  factbox_rows : List String
  paras : List String
  wiki_content_paras : List String
  links : List Link
  wiki_members : List Artist
  lastfm_members : List Artist
deriving DecidableEq

/-- Outcome of one `requests.get`: either the call raises (network-level
exception) or an HTTP response with a status code and parsed body arrives. -/
inductive FetchResult
  | exn
  | ok (status : Nat) (soup : Soup)

/-- The network: what each URL returns during the run. -/
def World : Type := String → FetchResult

deriving instance DecidableEq for Except

/-- Result of a source's `_get_artist_soup` method: the located page (or
none, or a propagating exception), the value the method left in
`self._current_artist_stack[-1]`, and the URLs it fetched, in order. -/
structure SoupOut where
  res : Except Unit (Option Soup)
  artist : Artist
  fetched : List String
deriving DecidableEq

/-- `Genderifier._wiki_get_info`. -/
def wiki_get_info (soup : Soup) : List String := soup.infobox_rows

/-- `Genderifier._wiki_is_artist_page`: the infobox headers intersect the
fixed marker set. -/
def wiki_is_artist_page (soup : Soup) : Bool :=
  (wiki_get_info soup).any (fun t => t == "Genres" || t == "Labels" || t == "Instruments")

/-- `Genderifier._wiki_is_disambiguation`. -/
def wiki_is_disambiguation (name : String) (soup : Soup) : Bool :=
  let n := strLower name
  let t := strLower soup.text
  strInfix (n ++ " may refer to:") t ||
  strInfix (n ++ " may also refer to:") t ||
  strInfix (n ++ " can refer to:") t

/-- `Genderifier._wiki_is_group`: infobox has a Members header. -/
def wiki_is_group (soup : Soup) : Bool := (wiki_get_info soup).contains "Members"

/-- `Genderifier._wiki_get_bio`: paragraph texts joined by spaces. -/
def wiki_get_bio (soup : Soup) : String := String.intercalate " " soup.paras

/-- `Genderifier._wiki_get_group_members` (the HTML traversal is carried by
the soup, see `Soup.wiki_members`). -/
def wiki_get_group_members (soup : Soup) : List Artist := soup.wiki_members

/-- `Genderifier._lastfm_get_info`. -/
def lastfm_get_info (soup : Soup) : List String := soup.factbox_rows

/-- `Genderifier._lastfm_is_group`. -/
def lastfm_is_group (soup : Soup) : Bool := (lastfm_get_info soup).contains "Members"

/-- `Genderifier._lastfm_get_bio` (the `paras is None` guard in the code is
dead: `select` always returns a list). -/
def lastfm_get_bio (soup : Soup) : String := String.intercalate " " soup.wiki_content_paras

/-- `Genderifier._lastfm_get_group_members` (see `Soup.lastfm_members`). -/
def lastfm_get_group_members (soup : Soup) : List Artist := soup.lastfm_members

/-- `Genderifier._wiki_get_disambiguated_artist_soup`: look for exactly one
link whose text mentions "band"; fetch it; accept it only if it is an
artist page, updating the stack-top artist's wiki URL. -/
def wiki_get_disambiguated_artist_soup (w : World) (artist : Artist) (soup : Soup) :
    SoupOut :=
  let links := soup.links.filter (fun l => strInfix "band" (strLower l.text))
  match links with
  | [l] =>
    let url := "https://en.wikipedia.org" ++ l.href
    match w url with
    | .exn => { res := .error (), artist := artist, fetched := [url] }
    | .ok _ s =>
      if wiki_is_artist_page s then
        { res := .ok (some s), artist := { artist with wiki_url := some url },
          fetched := [url] }
      else { res := .ok none, artist := artist, fetched := [url] }
  | _ => { res := .ok none, artist := artist, fetched := [] }

/-- `Genderifier._wiki_find_disambiguation`: follow a single
"see also (disambiguation)" hop, then re-check for disambiguation shape. -/
def wiki_find_disambiguation (w : World) (artist : Artist) (soup : Soup) : SoupOut :=
  if strInfix ("For other uses, see " ++ artist.name) soup.text then
    match soup.links.filter (fun l => l.text == artist.name ++ " (disambiguation)") with
    | [] => { res := .ok none, artist := artist, fetched := [] }
    | l :: _ =>
      let url := "https://en.wikipedia.org" ++ l.href
      match w url with
      | .exn => { res := .error (), artist := artist, fetched := [url] }
      | .ok _ s =>
        if wiki_is_disambiguation artist.name s then
          let out := wiki_get_disambiguated_artist_soup w artist s
          { out with fetched := url :: out.fetched }
        else { res := .ok none, artist := artist, fetched := [url] }
  else { res := .ok none, artist := artist, fetched := [] }

/-- The wiki URL candidate built at the top of `_wiki_get_artist_soup`. -/
def wiki_candidate_url (artist : Artist) : String :=
  artist.wiki_url.getD ("https://en.wikipedia.org/wiki/" ++ charReplace ' ' '_' artist.name)

/-- `Genderifier._wiki_get_artist_soup`: fetch the candidate URL, set the
stack-top wiki URL, run the redirect / disambiguation / artist-page checks
in order, and on any failure reset the stack top to its prior value. -/
def wiki_get_artist_soup (w : World) (artist : Artist) : SoupOut :=
  let name := artist.name
  let url := wiki_candidate_url artist
  match w url with
  | .exn => { res := .error (), artist := artist, fetched := [url] }
  | .ok _ soup =>
    let artist1 : Artist := { artist with wiki_url := some url }
    if strInfix ("Redirected from " ++ name) soup.text then
      -- redirect: continue_checks = False, falls through to the reset
      { res := .ok none, artist := artist, fetched := [url] }
    else if wiki_is_disambiguation name soup then
      let out := wiki_get_disambiguated_artist_soup w artist1 soup
      match out.res with
      | .error _ => { res := .error (), artist := out.artist, fetched := url :: out.fetched }
      | .ok none => { res := .ok none, artist := artist, fetched := url :: out.fetched }
      | .ok (some s) =>
        if wiki_is_artist_page s then
          { res := .ok (some s), artist := out.artist, fetched := url :: out.fetched }
        else
          let out2 := wiki_find_disambiguation w out.artist s
          match out2.res with
          | .error _ =>
            { res := .error (), artist := out2.artist,
              fetched := url :: (out.fetched ++ out2.fetched) }
          | .ok _ =>
            -- even a successful find_disambiguation result is dropped here:
            -- the code falls through to the failure reset
            { res := .ok none, artist := artist,
              fetched := url :: (out.fetched ++ out2.fetched) }
    else
      if wiki_is_artist_page soup then
        { res := .ok (some soup), artist := artist1, fetched := [url] }
      else
        let out2 := wiki_find_disambiguation w artist1 soup
        match out2.res with
        | .error _ => { res := .error (), artist := out2.artist, fetched := url :: out2.fetched }
        | .ok _ => { res := .ok none, artist := artist, fetched := url :: out2.fetched }

/-- The Last.fm URL candidate built at the top of `_lastfm_get_artist_soup`. -/
def lastfm_candidate_url (artist : Artist) : String :=
  artist.lastfm_url.getD
    ("https://www.last.fm/music/" ++ charReplace ' ' '+' artist.name ++ "/+wiki")

/-- `Genderifier._lastfm_get_artist_soup`: a 404 is a clean not-found;
any other response is returned as the located page with the stack-top
Last.fm URL updated. No artist-page validation and no rollback occur. -/
def lastfm_get_artist_soup (w : World) (artist : Artist) : SoupOut :=
  let url := lastfm_candidate_url artist
  match w url with
  | .exn => { res := .error (), artist := artist, fetched := [url] }
  | .ok status soup =>
    if status == 404 then { res := .ok none, artist := artist, fetched := [url] }
    else
      { res := .ok (some soup), artist := { artist with lastfm_url := some url },
        fetched := [url] }

/-- The two sources, in the code's `['wiki', 'lastfm']` list order. -/
inductive Source
  | wiki
  | lastfm
deriving DecidableEq

/-- `Genderifier._get_artist_soup` string-keyed dispatch. -/
def get_artist_soup : Source → World → Artist → SoupOut
  | .wiki => wiki_get_artist_soup
  | .lastfm => lastfm_get_artist_soup

/-- `Genderifier._is_group` dispatch. -/
def is_group_soup : Source → Soup → Bool
  | .wiki => wiki_is_group
  | .lastfm => lastfm_is_group

/-- `Genderifier._get_bio` dispatch. -/
def get_bio : Source → Soup → String
  | .wiki => wiki_get_bio
  | .lastfm => lastfm_get_bio

/-- `_{source}_get_group_members` dispatch. -/
def get_group_members : Source → Soup → List Artist
  | .wiki => wiki_get_group_members
  | .lastfm => lastfm_get_group_members

/-- Observable events of a run, recorded for the testable properties:
each `requests.get` for an artist page, and each source attempt with the
size of the resolution stack at the time of the attempt. -/
inductive Event
  | fetch (url : String)
  | sourceTry (depth : Nat) (src : Source)
deriving DecidableEq

/-- The `Genderifier` state: the `artists` table (in insertion order), the
append-only `meta` offset log (newest first), the in-flight resolution
stack (`self._current_artist_stack`, top last), the session report, the
`force_fetch` flag, and the event trace (instrumentation). -/
structure GState where
  db : List StoredRow
  offsets : List Nat
  stack : List Artist
  report : Report
  force_fetch : Bool
  trace : List Event
deriving DecidableEq

/-- `Genderifier._set_offset`: append a new checkpoint row; being newest,
it is the one the latest-timestamp read returns. -/
def set_offset (offset : Nat) (st : GState) : GState :=
  { st with offsets := offset :: st.offsets }

/-- `Genderifier._get_offset`: latest checkpoint, or 0 when the log is
empty. -/
def get_offset (st : GState) : Nat := st.offsets.headD 0

/-- `Genderifier._checked_result`: first `artists` row (by rowid, i.e.
insertion order) whose name matches, rebuilt as a `DBRow`. -/
def checked_result (db : List StoredRow) (name : String) : Option DBRow :=
  (db.find? (fun r => r.artist.name == name)).map
    (fun r =>
      { artist := r.artist, context := r.context, gender := r.gender,
        is_group := r.is_group, lead := r.lead, members := some r.members })

/-- `Genderifier._delete_artist` on the database (all rows of that name;
the `sqlite3.ProgrammingError` branch is modelled as not occurring, so the
delete succeeds). -/
def delete_artist (name : String) (st : GState) : GState :=
  { st with db := st.db.filter (fun r => !(r.artist.name == name)) }

/-- `Genderifier.store`: substitute the empty distribution for a falsy
`members` argument (`None` or the empty list of the group-depth bail-out),
log, insert the row, and return it as a `DBRow`. The
`sqlite3.ProgrammingError` branch of `_store_artist` is modelled as not
occurring. -/
def storeRow (artist : Artist) (gender context : Option String) (isGrp : Bool)
    (lead : Option String) (membersOpt : Option MemberResults) (st : GState) :
    DBRow × GState :=
  let members := membersOpt.getD emptyMembers
  ({ artist := artist, context := context, gender := gender, is_group := isGrp,
     lead := lead, members := some members },
   { st with
     db := st.db ++ [{ artist := artist, context := context, gender := gender,
                       is_group := isGrp, lead := lead, members := members }] })

/-- The `for ix, artist in enumerate(fn(soup))` loop of
`_get_group_genders`: resolve each member through `resolve` (the full
`genderise`), collecting names and genders; `lead` is the first member's
gender. A propagating exception aborts the loop. -/
def group_members_loop
    (resolve : Artist → GState → Except Unit (Option String) × GState) :
    List Artist → Nat → Option String → List String → List (Option String) →
    GState → Except Unit (Option String × List String × List (Option String)) × GState
  | [], _, lead, names, genders, st => (.ok (lead, names, genders), st)
  | m :: rest, ix, lead, names, genders, st =>
    match resolve m st with
    | (.error e, st2) => (.error e, st2)
    | (.ok g, st2) =>
      group_members_loop resolve rest (ix + 1) (if ix == 0 then g else lead)
        (names ++ [m.name]) (genders ++ [g]) st2

/-- `Counter(genders)[v]`: occurrences of one gender value. -/
def countOpt (genders : List (Option String)) (v : Option String) : Nat :=
  (genders.filter (fun g => g == v)).length

/-- `Genderifier._get_group_genders`. With more than one artist on the
resolution stack it bails out, returning Python's `(None, [])` — the empty
list being falsy, it is modelled as `(none, none)` and `store` later
substitutes the empty distribution. Otherwise every member is resolved and
the genders are tallied with `Counter`, `None` counting as unknown. -/
def get_group_genders
    (resolve : Artist → GState → Except Unit (Option String) × GState)
    (src : Source) (soup : Soup) (st : GState) :
    Except Unit (Option String × Option MemberResults) × GState :=
  if st.stack.length > 1 then
    (.ok (none, none), st)
  else
    match group_members_loop resolve (get_group_members src soup) 0 none [] [] st with
    | (.error e, st2) => (.error e, st2)
    | (.ok (lead, names, genders), st2) =>
      (.ok (lead, some
        { nonbinary := countOpt genders (some "nonbinary")
          female := countOpt genders (some "female")
          male := countOpt genders (some "male")
          unknown := countOpt genders none
          names := String.intercalate ", " names }), st2)

/-- The group-vs-person branch of `Genderifier._genderise_from_source`,
run once a source has located a page. A group is expanded (recursively
resolving members through `resolve`) and stored as a group row; a person's
biography, when non-empty, is classified and stored as a person row. An
empty (or whitespace-only) biography makes the source yield nothing. The
`stack = []` cases are unreachable: `genderise` pushes the artist first. -/
def genderise_branch
    (resolve : Artist → GState → Except Unit (Option String) × GState)
    (src : Source) (soup : Soup) (st : GState) :
    Except Unit (Option DBRow) × GState :=
  if is_group_soup src soup then
    match get_group_genders resolve src soup st with
    | (.error e, st2) => (.error e, st2)
    | (.ok (lead, membersOpt), st2) =>
      match st2.stack.getLast? with
      | none => (.ok none, st2)
      | some a2 =>
        let rs := storeRow a2 none none true lead membersOpt st2
        (.ok (some rs.1), rs.2)
  else
    let corpus := get_bio src soup
    if pyStrip corpus == "" then (.ok none, st)
    else
      let gc := get_gender_and_context corpus
      match st.stack.getLast? with
      | none => (.ok none, st)
      | some a2 =>
        let rs := storeRow a2 gc.1 gc.2 false none none st
        (.ok (some rs.1), rs.2)

/-- `Genderifier._genderise_from_source`: locate the page via the source's
`_get_artist_soup` (which updates the stack top as a side effect), then
run the group-vs-person branch. -/
def genderise_from_source
    (resolve : Artist → GState → Except Unit (Option String) × GState)
    (w : World) (src : Source) (st : GState) :
    Except Unit (Option DBRow) × GState :=
  match st.stack.getLast? with
  | none => (.ok none, st)
  | some artist =>
    let out := get_artist_soup src w artist
    let st1 : GState :=
      { st with
        stack := st.stack.dropLast ++ [out.artist]
        trace := st.trace ++ Event.sourceTry st.stack.length src :: out.fetched.map Event.fetch }
    match out.res with
    | .error e => (.error e, st1)
    | .ok none => (.ok none, st1)
    | .ok (some soup) => genderise_branch resolve src soup st1

/-- `self._current_artist_stack.append(artist)`. -/
def pushArtist (a : Artist) (st : GState) : GState :=
  { st with stack := st.stack ++ [a] }

/-- The unresolved in-memory `DBRow(artist, '', None, False, '', None)`
reported when no source yields a result. -/
def unresolvedRow (a : Artist) : DBRow :=
  { artist := a, context := some "", gender := none, is_group := false,
    lead := some "", members := none }

/-- The tail of `genderise` after the source loop: report the result (or
the unresolved row), pop the stack, and return the gender. On a
propagating exception the pop at the end of `genderise` is never executed
(there is no try/finally around it). -/
def finishMiss (a : Artist) (r : Except Unit (Option DBRow) × GState) :
    Except Unit (Option String) × GState :=
  match r with
  | (.error e, st) => (.error e, st)
  | (.ok (some row), st) =>
    (.ok row.gender,
     { st with report := add_to_report st.report row, stack := st.stack.dropLast })
  | (.ok none, st) =>
    (.ok none,
     { st with report := add_to_report st.report (unresolvedRow a),
               stack := st.stack.dropLast })

/-- The cache-miss path of `genderise`: push the artist, then run
`while len(sources) and result is None: result = ..._from_source(sources.pop())`
over `sources = ['wiki', 'lastfm']`. `list.pop()` removes the LAST
element, so Last.fm is attempted first and Wikipedia only if Last.fm
yielded nothing. -/
def genderiseMiss
    (resolve : Artist → GState → Except Unit (Option String) × GState)
    (w : World) (a : Artist) (st : GState) :
    Except Unit (Option String) × GState :=
  let st1 := pushArtist a st
  match genderise_from_source resolve w Source.lastfm st1 with
  | (.error e, st2) => (.error e, st2)
  | (.ok (some row), st2) => finishMiss a (.ok (some row), st2)
  | (.ok none, st2) => finishMiss a (genderise_from_source resolve w Source.wiki st2)

/-- One unfolding of `Genderifier.genderise`, with the recursive
resolution of group members abstracted as `resolve`. A cached non-group
row with unknown gender, or any cached row under `force_fetch`, is deleted
and re-fetched; any other cached row short-circuits: it is added to the
report and logged, and the bare Python `return` hands `None` back to the
caller. -/
def genderiseStep
    (resolve : Artist → GState → Except Unit (Option String) × GState)
    (w : World) (artist : Artist) (st : GState) :
    Except Unit (Option String) × GState :=
  match checked_result st.db artist.name with
  | some result =>
    if result.gender.isNone && !result.is_group then
      genderiseMiss resolve w artist (delete_artist artist.name st)
    else if st.force_fetch then
      genderiseMiss resolve w artist (delete_artist artist.name st)
    else
      (.ok none, { st with report := add_to_report st.report result })
  | none => genderiseMiss resolve w artist st

/-- `Genderifier.genderise`, indexed by fuel for the recursion through
group members. The group-depth guard makes fuel 2 sufficient for every
run (proved below), so `genderise` is defined as the fuel-2 instance. -/
def genderiseFuel (w : World) : Nat → Artist → GState → Except Unit (Option String) × GState
  | 0, _, st => (.ok none, st)
  | fuel + 1, artist, st => genderiseStep (genderiseFuel w fuel) w artist st

/-- `Genderifier.genderise`. -/
def genderise (w : World) : Artist → GState → Except Unit (Option String) × GState :=
  genderiseFuel w 2

/-- Whether an exception interrupts a batch run, and how. `interrupted`
models `KeyboardInterrupt`/`SystemExit` (caught, offset adjusted,
re-raised); `exn` is any other exception, which no handler catches. -/
inductive BatchEnd
  | done
  | interrupted
  | exn
deriving DecidableEq

/-- The `for ix, artist in enumerate(...)` loop of
`Genderifier.genderise_batch`. `interruptAt = some k` injects a
`KeyboardInterrupt` while artist `k` is being processed (its partial
in-artist effects are abstracted away; the spec's concern is the offset
bookkeeping): the handler decrements `ix` and re-raises, so the `finally`
block persists `offset + (ix - 1) + 1 = offset + ix`. After each normally
completed artist the `finally` block persists `offset + ix + 1`; an
ordinary exception from `genderise` also reaches `finally` and then
propagates, aborting the batch. -/
def genderise_batch_loop (w : World) (interruptAt : Option Nat) (offset : Nat) :
    List Artist → Nat → GState → BatchEnd × GState
  | [], _, st => (.done, st)
  | a :: rest, ix, st =>
    if interruptAt == some ix then
      (.interrupted, set_offset (offset + ix) st)
    else
      match genderise w a st with
      | (.error _, st2) => (.exn, set_offset (offset + ix + 1) st2)
      | (.ok _, st2) =>
        genderise_batch_loop w interruptAt offset rest (ix + 1)
          (set_offset (offset + ix + 1) st2)

/-- `Genderifier.genderise_batch`: read the starting offset, then run the
loop over the fetched artists. -/
def genderise_batch (w : World) (interruptAt : Option Nat) (artists : List Artist)
    (st : GState) : BatchEnd × GState :=
  genderise_batch_loop w interruptAt (get_offset st) artists 0 st

/-- `Genderifier.set_artist_batch_from_spotify_search`: the catalog search
API is an external collaborator, modelled as a fixed ordered list of
artists of which the paged query returns the window starting at `offset`
of size `min(50, batch_limit)`. With no explicit offset the stored
checkpoint is used; an explicit offset is persisted first. -/
def set_artist_batch_from_spotify_search (catalog : List Artist) (batchLimit : Nat)
    (offset : Option Nat) (st : GState) : List Artist × GState :=
  match offset with
  | none => ((catalog.drop (get_offset st)).take (min 50 batchLimit), st)
  | some o => ((catalog.drop o).take (min 50 batchLimit), set_offset o st)

/-- An artist known only by name, as `get_artist_obj_from_name` builds it. -/
def mkArtist (n : String) : Artist :=
  { name := n, spotify_id := none, wiki_url := none, lastfm_url := none }

/-- A page with no recognisable structure at all. -/
def soup0 : Soup :=
  { text := "", infobox_rows := [], factbox_rows := [], paras := [],
    wiki_content_paras := [], links := [], wiki_members := [], lastfm_members := [] }

/-- A fresh session: empty store, empty offset log, no force-refresh. -/
def gstate0 : GState :=
  { db := [], offsets := [], stack := [], report := emptyReport,
    force_fetch := false, trace := [] }

/-- Number of page fetches recorded in a trace. -/
def countFetchEvents (l : List Event) : Nat :=
  (l.filter (fun e => match e with | .fetch _ => true | _ => false)).length

/-- The source attempts recorded in a trace at a given stack depth. -/
def triesAtDepth (d : Nat) (l : List Event) : List Source :=
  l.filterMap (fun e =>
    match e with
    | .sourceTry d' s => if d' == d then some s else none
    | .fetch _ => none)

/-- C3 failing input: the first pronoun "she" sits at token index 2, so the
context slice is Python's `words[-3:7]`, whose negative start wraps to
index 9 past the end index 7 — an empty window. -/
def c3_corpus : String :=
  "Before Elvis she was a waitress and he later married her quickly"

/-- C3 interior input: "she" at token index 6 in a 14-token text, so the
window is `words[1:11]` — 5 tokens before but only 4 after. -/
def c3_corpus_interior : String := "a b c d e f she h i j k l m n"

/-- Claim C3: the spec says a first-pronoun "she" yields the female label
with a context of the 5 tokens before and the 5 after, clamped (never
wrapped) at text boundaries, at most 11 tokens. The code disagrees twice:
`words[ix - 5:ix + 5]` wraps a negative start (here producing an EMPTY
context for a hit near the start of the text), and even away from
boundaries it keeps only 4 tokens after the pronoun (a 10-token window). -/
theorem c3_context_window_eval :
    get_gender_and_context c3_corpus = (some "female", some "") ∧
    get_gender_and_context c3_corpus_interior =
      (some "female", some "b c d e f she h i j k") := by
  decide

/-- C5 row: a non-group female result for one artist. -/
def c5_row : DBRow :=
  { artist := mkArtist "Alice", context := some "ctx", gender := some "female",
    is_group := false, lead := none, members := some emptyMembers }

/-- Claim C5: the spec says the report tracks the set of artists already
counted, so reporting the same artist twice increments the totals exactly
once. In the code `add_to_report` checks membership in that set but never
inserts into it, so the set stays empty and the same artist's result is
counted again on every call: two identical reports yield a female total of
2. The guard itself is honoured when the set is (hypothetically) non-empty
— third conjunct — which confirms the intent the code fails to implement. -/
theorem c5_report_double_count :
    add_to_report (add_to_report emptyReport c5_row) c5_row =
      { artists := [], nonbinary := 0, female := 2, male := 0, unknown := 0 } ∧
    (add_to_report emptyReport c5_row).artists = [] ∧
    add_to_report { emptyReport with artists := [c5_row.artist] } c5_row =
      { emptyReport with artists := [c5_row.artist] } := by
  decide

/-- C2 cached artist: a known-gender (female) non-group record. -/
def c2_artist : Artist := mkArtist "Alice"

/-- The cached row for `c2_artist`. -/
def c2_cached_row : StoredRow :=
  { artist := c2_artist, context := some "x", gender := some "female",
    is_group := false, lead := none, members := emptyMembers }

/-- Session state whose store already holds `c2_cached_row`. -/
def c2_st : GState := { gstate0 with db := [c2_cached_row] }

/-- A network where every fetch raises: any attempted fetch would surface
as an exception, so an exception-free run performed no fetch at all. -/
def c2_world : World := fun _ => FetchResult.exn

/-- A Last.fm group page whose sole member is the cached `c2_artist`. -/
def c2_group_soup : Soup :=
  { soup0 with factbox_rows := ["Members"], lastfm_members := [c2_artist] }

/-- Network for the C2 group demonstration. -/
def c2_group_world : World := fun url =>
  if url == "https://www.last.fm/music/Band/+wiki" then .ok 200 c2_group_soup
  else .exn

/-- Claim C2: for a cached record with known gender, `genderise` does
short-circuit with no fetch (the world raises on every URL, yet no
exception surfaces and the trace is empty), adds the cached result to the
report (female total becomes 1) — but the bare Python `return` hands back
`None`, NOT the cached label "female". The second conjunct shows the
consequence the code itself relies on: a group whose member is cached as
female tallies that member as unknown (distribution (nb,f,m,u) row list is
[(0,0,0,0) for the cached row, (0,0,0,1) for the group]). -/
theorem c2_cache_hit_short_circuit :
    genderise c2_world c2_artist c2_st =
      (Except.ok none,
       { c2_st with report :=
         { artists := [], nonbinary := 0, female := 1, male := 0, unknown := 0 } }) ∧
    (genderise c2_group_world (mkArtist "Band") c2_st).2.db.map
      (fun r => (r.members.nonbinary, r.members.female, r.members.male, r.members.unknown)) =
      [(0, 0, 0, 0), (0, 0, 0, 1)] := by
  decide

/-- C1 artist resolved from a cold cache. -/
def c1_artist : Artist := mkArtist "Norah"

/-- A Last.fm page whose biography's first pronoun is "she". -/
def c1_lastfm_soup : Soup :=
  { soup0 with wiki_content_paras := ["After moving she sang widely"] }

/-- A Wikipedia artist page (infobox has Genres) whose biography's first
pronoun is "he". -/
def c1_wiki_soup : Soup :=
  { soup0 with infobox_rows := ["Genres"], paras := ["After moving he sang widely"] }

/-- Network where BOTH sources have a valid page for `c1_artist`, with
conflicting biographies (Wikipedia says "he", Last.fm says "she"). -/
def c1_world : World := fun url =>
  if url == "https://www.last.fm/music/Norah/+wiki" then .ok 200 c1_lastfm_soup
  else if url == "https://en.wikipedia.org/wiki/Norah" then .ok 200 c1_wiki_soup
  else .exn

/-- The row the Wikipedia (primary) source yields for `c1_artist` when it
is actually consulted. -/
def c1_wiki_row : DBRow :=
  { artist := { c1_artist with wiki_url := some "https://en.wikipedia.org/wiki/Norah" },
    context := some "he sang widely", gender := some "male", is_group := false,
    lead := none, members := some emptyMembers }

/-- Claim C1 counterexample: the claim says Wikipedia (primary) is tried
first and Last.fm (secondary) only if Wikipedia yielded nothing. On a
world where both sources succeed, the code resolves the artist to the
LAST.FM answer ("she" → female), its trace shows exactly one source
attempt — Last.fm — and no Wikipedia event at all, even though the
Wikipedia attempt, run on the same state, yields a (male) result. The
culprit is `sources.pop()` on `['wiki', 'lastfm']`, which pops the last
element first. -/
theorem c1_source_order_counterexample :
    (genderise c1_world c1_artist gstate0).1 = Except.ok (some "female") ∧
    (genderise c1_world c1_artist gstate0).2.trace =
      [Event.sourceTry 1 Source.lastfm,
       Event.fetch "https://www.last.fm/music/Norah/+wiki"] ∧
    (genderise_from_source (genderiseFuel c1_world 1) c1_world Source.wiki
        (pushArtist c1_artist gstate0)).1 = Except.ok (some c1_wiki_row) := by
  decide

/-- C9 artist: no known URLs. -/
def c9_artist : Artist := mkArtist "NoFact"

/-- A Last.fm page exposing NO factbox fields at all. -/
def c9_soup : Soup := { soup0 with text := "nothing structured here" }

/-- Network serving `c9_soup` (status 200) for the derived Last.fm URL. -/
def c9_world : World := fun url =>
  if url == "https://www.last.fm/music/NoFact/+wiki" then .ok 200 c9_soup
  else .exn

/-- Claim C9 counterexample: the claim says each source's locate returns a
page only when its infobox/factbox fields intersect the artist marker set,
and rolls the identity's URL back otherwise. The secondary (Last.fm)
locate does neither: served a page with an EMPTY factbox field set, it
returns the page and leaves the identity's Last.fm URL permanently
updated. -/
theorem c9_lastfm_no_validation_counterexample :
    lastfm_get_artist_soup c9_world c9_artist =
      { res := Except.ok (some c9_soup),
        artist := { c9_artist with lastfm_url := some "https://www.last.fm/music/NoFact/+wiki" },
        fetched := ["https://www.last.fm/music/NoFact/+wiki"] } ∧
    lastfm_get_info c9_soup = [] := by
  decide

/-- C8 artist. -/
def c8_artist : Artist := mkArtist "Perso"

/-- A Last.fm page whose biography contains no pronoun at all. -/
def c8_soup : Soup := { soup0 with wiki_content_paras := ["A general biography text"] }

/-- Network serving the pronoun-free page for `c8_artist`. -/
def c8_world : World := fun url =>
  if url == "https://www.last.fm/music/Perso/+wiki" then .ok 200 c8_soup
  else .exn

/-- Claim C8 counterexample: the claim says resolving ANY artist a second
time in-session (no force-refresh) is a cache hit with zero additional
fetches. For an artist whose biography has no pronouns, the first
resolution stores a non-group row with unknown gender; the second call
finds that stale row, DELETES it and re-fetches: the run's fetch count
goes from 1 after the first call to 2 after the second — one additional
fetch, not zero. -/
theorem c8_stale_refetch_counterexample :
    countFetchEvents (genderise c8_world c8_artist gstate0).2.trace = 1 ∧
    countFetchEvents
      (genderise c8_world c8_artist (genderise c8_world c8_artist gstate0).2).2.trace = 2 ∧
    (genderise c8_world c8_artist gstate0).2.db.map (fun r => (r.artist.name, r.gender)) =
      [("Perso", none)] := by
  decide

/-- C4 network: every fetch raises a network-level exception. -/
def c4_world : World := fun _ => FetchResult.exn

/-- Claim C4 counterexample: the claim says a third-party fetch failure
during one artist's resolution yields an unresolved outcome for that
source only and never aborts the batch. The batch loop catches only
`KeyboardInterrupt`/`SystemExit`, so a network-level fetch exception on
the first artist propagates and ends the batch: the run result is `exn`,
the second artist is never touched (the trace stops at the first artist's
single attempt), no unresolved outcome is recorded (the report stays
zero), and the resolution stack is left unpopped. -/
theorem c4_fetch_exception_aborts_batch :
    genderise_batch c4_world none [mkArtist "A1", mkArtist "A2"] gstate0 =
      (BatchEnd.exn,
       { db := [], offsets := [1], stack := [mkArtist "A1"], report := emptyReport,
         force_fetch := false,
         trace := [Event.sourceTry 1 Source.lastfm,
                   Event.fetch "https://www.last.fm/music/A1/+wiki"] }) := by
  decide

/-- Claim C8 (amended): resolving an artist again with force-refresh off is
a zero-fetch cache short-circuit PROVIDED the cached record has a known
gender or is a group. The whole resulting state differs from the input
only in the report, so the trace (hence the fetch count) and the store are
untouched. (The unamended claim fails when the first resolution left an
unknown-gender person record or nothing at all — see the counterexample.) -/
theorem c8_amended_cache_hit (w : World) (n : Nat) (a : Artist) (st : GState) (r : DBRow)
    (hforce : st.force_fetch = false)
    (hhit : checked_result st.db a.name = some r)
    (hterm : r.gender.isSome = true ∨ r.is_group = true) :
    genderiseFuel w (n + 1) a st =
      (Except.ok none, { st with report := add_to_report st.report r }) := by
  have hcond : (r.gender.isNone && !r.is_group) = false := by
    rcases hterm with h | h
    · cases hg : r.gender with
      | none => rw [hg] at h; simp at h
      | some v => simp [hg]
    · simp [h]
  show genderiseStep (genderiseFuel w n) w a st = _
  unfold genderiseStep
  rw [hhit]
  simp only [hcond, hforce, Bool.false_eq_true, if_false]

/-- C8 witness artist ("she" biography on Last.fm). -/
def c8w_artist : Artist := mkArtist "Sia"

/-- C8 witness page. -/
def c8w_soup : Soup := { soup0 with wiki_content_paras := ["later she sang"] }

/-- C8 witness network. -/
def c8w_world : World := fun url =>
  if url == "https://www.last.fm/music/Sia/+wiki" then .ok 200 c8w_soup
  else .exn

/-- The session state after the first resolution of `c8w_artist`. -/
def c8w_st1 : GState := (genderise c8w_world c8w_artist gstate0).2

/-- The cached row the second resolution of `c8w_artist` finds. -/
def c8w_row : DBRow :=
  { artist := { name := "Sia", spotify_id := none, wiki_url := none,
                lastfm_url := some "https://www.last.fm/music/Sia/+wiki" },
    context := some "later she sang", gender := some "female", is_group := false,
    lead := none, members := some emptyMembers }

/-- Witness for `c8_amended_cache_hit`: the second in-session resolution of
a successfully resolved artist touches only the report. -/
theorem c8_amended_cache_hit_witness :
    genderiseFuel c8w_world 2 c8w_artist c8w_st1 =
      (Except.ok none, { c8w_st1 with report := add_to_report c8w_st1.report c8w_row }) :=
  c8_amended_cache_hit c8w_world 1 c8w_artist c8w_st1 c8w_row (by decide) (by decide)
    (Or.inl (by decide))

/-- Wikipedia locate soundness: a returned page always passed the
artist-page marker check. -/
theorem wiki_locate_some_is_artist (w : World) (a : Artist) (s : Soup)
    (h : (wiki_get_artist_soup w a).res = Except.ok (some s)) :
    wiki_is_artist_page s = true := by
  simp only [wiki_get_artist_soup] at h
  split at h
  · simp at h
  · split at h
    · simp at h
    · split at h
      · split at h
        · simp at h
        · simp at h
        · rename_i hart
          split at h
          · rename_i hpage
            simp only [Except.ok.injEq, Option.some.injEq] at h
            rw [← h]; assumption
          · split at h <;> simp at h
      · split at h
        · rename_i hpage
          simp only [Except.ok.injEq, Option.some.injEq] at h
          rw [← h]; assumption
        · split at h <;> simp at h

/-- Case analysis of the Wikipedia locate: it either returns a validated
artist page, returns none with the stack-top artist rolled back to its
prior value, or propagates a fetch exception. -/
theorem wiki_locate_cases (w : World) (a : Artist) :
    (∃ s, (wiki_get_artist_soup w a).res = Except.ok (some s) ∧
          wiki_is_artist_page s = true) ∨
    ((wiki_get_artist_soup w a).res = Except.ok none ∧
     (wiki_get_artist_soup w a).artist = a) ∨
    (wiki_get_artist_soup w a).res = Except.error () := by
  simp only [wiki_get_artist_soup]
  split
  · right; right; rfl
  · split
    · right; left; exact ⟨rfl, rfl⟩
    · split
      · split
        · right; right; rfl
        · right; left; exact ⟨rfl, rfl⟩
        · split
          · rename_i hpage
            left; exact ⟨_, rfl, hpage⟩
          · split
            · right; right; rfl
            · right; left; exact ⟨rfl, rfl⟩
      · split
        · rename_i hpage
          left; exact ⟨_, rfl, hpage⟩
        · split
          · right; right; rfl
          · right; left; exact ⟨rfl, rfl⟩

/-- Wikipedia locate rollback: when no page is returned, the stack-top
artist (in particular its wiki URL) is reset to its prior value. -/
theorem wiki_locate_none_rollback (w : World) (a : Artist)
    (h : (wiki_get_artist_soup w a).res = Except.ok none) :
    (wiki_get_artist_soup w a).artist = a := by
  rcases wiki_locate_cases w a with ⟨s, hs, _⟩ | ⟨_, ha⟩ | herr
  · rw [hs] at h; simp at h
  · exact ha
  · rw [herr] at h; simp at h

/-- Claim C9 (amended): only the PRIMARY source's locate validates and
rolls back. For Wikipedia, a returned page always exposes infobox fields
intersecting the artist marker set (first conjunct), and a locate that
yields none leaves the identity exactly as it was — the URL write is
rolled back (second conjunct). The SECONDARY source's locate performs no
factbox validation at all: any non-404 response is returned as the located
page with the identity's Last.fm URL permanently updated (third conjunct;
the counterexample instantiates it with a page whose factbox is empty). -/
theorem c9_amended_locate_validation (w₁ : World) (a₁ : Artist) (s₁ : Soup)
    (h₁ : (wiki_get_artist_soup w₁ a₁).res = Except.ok (some s₁))
    (w₂ : World) (a₂ : Artist)
    (h₂ : (wiki_get_artist_soup w₂ a₂).res = Except.ok none)
    (w₃ : World) (a₃ : Artist) (status : Nat) (s₃ : Soup)
    (h₃ : w₃ (lastfm_candidate_url a₃) = FetchResult.ok status s₃)
    (h₄ : (status == 404) = false) :
    wiki_is_artist_page s₁ = true ∧
    (wiki_get_artist_soup w₂ a₂).artist = a₂ ∧
    lastfm_get_artist_soup w₃ a₃ =
      { res := Except.ok (some s₃),
        artist := { a₃ with lastfm_url := some (lastfm_candidate_url a₃) },
        fetched := [lastfm_candidate_url a₃] } := by
  refine ⟨wiki_locate_some_is_artist w₁ a₁ s₁ h₁, wiki_locate_none_rollback w₂ a₂ h₂, ?_⟩
  simp only [lastfm_get_artist_soup, h₃, h₄]
  simp

/-- C9 witness wiki artist. -/
def c9w_artist : Artist := mkArtist "Wk"

/-- C9 witness: a valid Wikipedia artist page. -/
def c9w_good_soup : Soup := { soup0 with infobox_rows := ["Labels"] }

/-- C9 witness network: a valid artist page at the derived wiki URL. -/
def c9w_good_world : World := fun url =>
  if url == "https://en.wikipedia.org/wiki/Wk" then .ok 200 c9w_good_soup
  else .exn

/-- C9 witness network: a structureless page at the derived wiki URL. -/
def c9w_bad_world : World := fun url =>
  if url == "https://en.wikipedia.org/wiki/Wk" then .ok 200 soup0
  else .exn

/-- C9 witness Last.fm artist and page. -/
def c9w_lastfm_artist : Artist := mkArtist "Lf"

/-- Witness for `c9_amended_locate_validation` at a concrete world: a page
located by Wikipedia is marker-validated, a failed Wikipedia probe leaves
the identity unchanged, and Last.fm returns the 200-status page verbatim. -/
theorem c9_amended_locate_validation_witness :
    wiki_is_artist_page c9w_good_soup = true ∧
    (wiki_get_artist_soup c9w_bad_world c9w_artist).artist = c9w_artist ∧
    lastfm_get_artist_soup (fun _ => .ok 200 c9_soup) c9w_lastfm_artist =
      { res := Except.ok (some c9_soup),
        artist := { c9w_lastfm_artist with
                    lastfm_url := some (lastfm_candidate_url c9w_lastfm_artist) },
        fetched := [lastfm_candidate_url c9w_lastfm_artist] } :=
  c9_amended_locate_validation c9w_good_world c9w_artist c9w_good_soup (by decide)
    c9w_bad_world c9w_artist (by decide)
    (fun _ => .ok 200 c9_soup) c9w_lastfm_artist 200 c9_soup rfl (by decide)

/-- The value space of a gender label as the engine produces it. -/
def isGenderOpt (g : Option String) : Prop :=
  g = none ∨ g = some "nonbinary" ∨ g = some "female" ∨ g = some "male"

/-- `PRONOUN_MAP` only produces the three labels. -/
theorem PRONOUN_MAP_range (s : String) : isGenderOpt (PRONOUN_MAP s) := by
  unfold PRONOUN_MAP isGenderOpt
  split_ifs <;> simp

/-- The classifier only produces the three labels or none. -/
theorem gender_and_context_range (c : String) :
    isGenderOpt (get_gender_and_context c).1 := by
  simp only [get_gender_and_context]
  split
  · exact PRONOUN_MAP_range _
  · exact Or.inl rfl

/-- `storeRow` keeps the gender it is given. -/
theorem storeRow_gender (artist : Artist) (g c : Option String) (grp : Bool)
    (lead : Option String) (m : Option MemberResults) (st : GState) :
    (storeRow artist g c grp lead m st).1.gender = g := rfl

/-- A row yielded by a source try carries either no gender (group rows) or
a classifier label. -/
theorem fromSource_row_gender
    (resolve : Artist → GState → Except Unit (Option String) × GState)
    (w : World) (src : Source) (st : GState) (row : DBRow) (st' : GState)
    (h : genderise_from_source resolve w src st = (Except.ok (some row), st')) :
    isGenderOpt row.gender := by
  simp only [genderise_from_source, genderise_branch] at h
  split at h
  · simp at h
  · split at h
    · simp at h
    · simp at h
    · split at h
      · split at h
        · simp at h
        · split at h
          · simp at h
          · simp only [Prod.mk.injEq, Except.ok.injEq, Option.some.injEq] at h
            rw [← h.1]
            exact Or.inl rfl
      · split at h
        · simp at h
        · split at h
          · simp at h
          · simp only [Prod.mk.injEq, Except.ok.injEq, Option.some.injEq] at h
            rw [← h.1]
            exact gender_and_context_range _

/-- The miss path returns either a stored row's gender or none. -/
theorem genderiseMiss_gender_range
    (resolve : Artist → GState → Except Unit (Option String) × GState)
    (w : World) (a : Artist) (st : GState) (g : Option String) (st' : GState)
    (h : genderiseMiss resolve w a st = (Except.ok g, st')) :
    isGenderOpt g := by
  simp only [genderiseMiss] at h
  split at h
  · simp at h
  · rename_i row st2 heq
    simp only [finishMiss, Prod.mk.injEq, Except.ok.injEq] at h
    rw [← h.1]
    exact fromSource_row_gender resolve w Source.lastfm _ row st2 heq
  · rename_i st2 heq
    rcases hw : genderise_from_source resolve w Source.wiki st2 with ⟨res, st3⟩
    rw [hw] at h
    cases res with
    | error e => simp [finishMiss] at h
    | ok o =>
      cases o with
      | none =>
        simp only [finishMiss, Prod.mk.injEq, Except.ok.injEq] at h
        exact Or.inl h.1.symm
      | some row =>
        simp only [finishMiss, Prod.mk.injEq, Except.ok.injEq] at h
        rw [← h.1]
        exact fromSource_row_gender resolve w Source.wiki st2 row st3 hw

/-- `genderise` (at any fuel) returns only the three labels or none. -/
theorem genderiseFuel_gender_range (w : World) (n : Nat) (a : Artist) (st : GState)
    (g : Option String) (st' : GState)
    (h : genderiseFuel w n a st = (Except.ok g, st')) :
    isGenderOpt g := by
  cases n with
  | zero =>
    simp only [genderiseFuel, Prod.mk.injEq, Except.ok.injEq] at h
    exact Or.inl h.1.symm
  | succ n =>
    simp only [genderiseFuel, genderiseStep] at h
    split at h
    · split at h
      · exact genderiseMiss_gender_range _ w a _ g st' h
      · split at h
        · exact genderiseMiss_gender_range _ w a _ g st' h
        · simp only [Prod.mk.injEq, Except.ok.injEq] at h
          exact Or.inl h.1.symm
    · exact genderiseMiss_gender_range _ w a _ g st' h

/-- The member loop appends exactly one gender per member, each produced by
the resolver. -/
theorem loop_genders_spec
    (resolve : Artist → GState → Except Unit (Option String) × GState)
    (hres : ∀ m s g s', resolve m s = (Except.ok g, s') → isGenderOpt g) :
    ∀ (ms : List Artist) (ix : Nat) (lead : Option String) (names : List String)
      (genders : List (Option String)) (st : GState) (lead' : Option String)
      (names' : List String) (genders' : List (Option String)) (st' : GState),
      group_members_loop resolve ms ix lead names genders st =
        (Except.ok (lead', names', genders'), st') →
      genders'.length = genders.length + ms.length ∧
      ∀ g ∈ genders', g ∈ genders ∨ isGenderOpt g := by
  intro ms
  induction ms with
  | nil =>
    intro ix lead names genders st lead' names' genders' st' h
    simp only [group_members_loop, Prod.mk.injEq, Except.ok.injEq] at h
    obtain ⟨⟨_, _, hg⟩, _⟩ := h
    subst hg
    exact ⟨by simp, fun g hg => Or.inl hg⟩
  | cons m rest ih =>
    intro ix lead names genders st lead' names' genders' st' h
    simp only [group_members_loop] at h
    rcases hr : resolve m st with ⟨res, st2⟩
    rw [hr] at h
    cases res with
    | error e => simp at h
    | ok g2 =>
      obtain ⟨hlen, hmem⟩ := ih _ _ _ _ _ _ _ _ _ h
      constructor
      · simp only [List.length_append, List.length_cons, List.length_nil] at hlen ⊢
        omega
      · intro g hg
        rcases hmem g hg with hin | hok
        · rcases List.mem_append.mp hin with hin | hin
          · exact Or.inl hin
          · simp at hin
            subst hin
            exact Or.inr (hres m st g st2 hr)
        · exact Or.inr hok

/-- `countOpt` over a cons, matching head. -/
theorem countOpt_cons_self (x : Option String) (t : List (Option String)) :
    countOpt (x :: t) x = countOpt t x + 1 := by
  simp [countOpt, List.filter_cons]

/-- `countOpt` over a cons, non-matching head. -/
theorem countOpt_cons_ne (x v : Option String) (t : List (Option String))
    (h : x ≠ v) :
    countOpt (x :: t) v = countOpt t v := by
  simp [countOpt, List.filter_cons, h]

/-- Over lists of engine gender values, the four `Counter` buckets
partition the list. -/
theorem counts_sum (l : List (Option String)) (hl : ∀ g ∈ l, isGenderOpt g) :
    countOpt l (some "nonbinary") + countOpt l (some "female") +
      countOpt l (some "male") + countOpt l none = l.length := by
  induction l with
  | nil => simp [countOpt]
  | cons x t ih =>
    have hx := hl x (by simp)
    have iht := ih (fun g hg => hl g (by simp [hg]))
    rcases hx with h | h | h | h <;> subst h
    · rw [countOpt_cons_ne _ _ _ (by decide), countOpt_cons_ne _ _ _ (by decide),
          countOpt_cons_ne _ _ _ (by decide), countOpt_cons_self]
      simp; omega
    · rw [countOpt_cons_self, countOpt_cons_ne _ _ _ (by decide),
          countOpt_cons_ne _ _ _ (by decide), countOpt_cons_ne _ _ _ (by decide)]
      simp; omega
    · rw [countOpt_cons_ne _ _ _ (by decide), countOpt_cons_self,
          countOpt_cons_ne _ _ _ (by decide), countOpt_cons_ne _ _ _ (by decide)]
      simp; omega
    · rw [countOpt_cons_ne _ _ _ (by decide), countOpt_cons_ne _ _ _ (by decide),
          countOpt_cons_self, countOpt_cons_ne _ _ _ (by decide)]
      simp; omega

/-- Claim C10: whenever a group's member list is actually expanded (the
depth guard did not bail, so a distribution is produced), the resulting
`MemberResults` satisfies nonbinary + female + male + unknown = number of
processed members; a member whose resolution yields no label lands in the
unknown bucket via `Counter(genders)[None]`. -/
theorem c10_distribution_sum (w : World) (n : Nat) (src : Source) (soup : Soup)
    (st : GState) (lead : Option String) (mr : MemberResults)
    (h : (get_group_genders (genderiseFuel w n) src soup st).1 =
      Except.ok (lead, some mr)) :
    mr.nonbinary + mr.female + mr.male + mr.unknown =
      (get_group_members src soup).length := by
  simp only [get_group_genders] at h
  split at h
  · simp at h
  · split at h
    · simp at h
    · rename_i lead0 names genders st2 heq
      simp only [Except.ok.injEq, Prod.mk.injEq, Option.some.injEq] at h
      obtain ⟨hlen, hmem⟩ :=
        loop_genders_spec _ (fun m s g s' => genderiseFuel_gender_range w n m s g s')
          _ _ _ _ _ _ _ _ _ _ heq
      rw [← h.2]
      have hsum := counts_sum genders (fun g hg => (hmem g hg).resolve_left (by simp))
      simp only []
      simp at hlen
      omega

/-- C10 witness group members with pre-seeded Last.fm URLs. -/
def c10w_memberA : Artist :=
  { name := "A", spotify_id := none, wiki_url := none, lastfm_url := some "LA" }

/-- Second C10 witness member. -/
def c10w_memberB : Artist :=
  { name := "B", spotify_id := none, wiki_url := none, lastfm_url := some "LB" }

/-- C10 witness group page. -/
def c10w_gsoup : Soup :=
  { soup0 with factbox_rows := ["Members"],
               lastfm_members := [c10w_memberA, c10w_memberB] }

/-- C10 witness network: member A's biography says "she", member B's says
"he". -/
def c10w_world : World := fun url =>
  if url == "LA" then .ok 200 { soup0 with wiki_content_paras := ["later she sang"] }
  else if url == "LB" then .ok 200 { soup0 with wiki_content_paras := ["later he sang"] }
  else .exn

/-- C10 witness session state: the group itself is on the stack. -/
def c10w_st : GState := pushArtist (mkArtist "Duo") gstate0

/-- Witness for `c10_distribution_sum`: the two-member group expands to the
distribution (0, 1, 1, 0), which sums to its member count. -/
theorem c10_distribution_sum_witness :
    (MemberResults.mk 0 1 1 0 "A, B").nonbinary + (MemberResults.mk 0 1 1 0 "A, B").female +
      (MemberResults.mk 0 1 1 0 "A, B").male + (MemberResults.mk 0 1 1 0 "A, B").unknown =
      (get_group_members Source.lastfm c10w_gsoup).length :=
  c10_distribution_sum c10w_world 1 Source.lastfm c10w_gsoup c10w_st (some "female")
    (MemberResults.mk 0 1 1 0 "A, B") (by decide)

/-- The group-depth guard: with more than one artist on the resolution
stack, group expansion returns the bail-out value without touching the
state or calling the resolver. -/
theorem get_group_genders_bail
    (resolve : Artist → GState → Except Unit (Option String) × GState)
    (src : Source) (soup : Soup) (st : GState) (h : 1 < st.stack.length) :
    get_group_genders resolve src soup st = (Except.ok (none, none), st) := by
  unfold get_group_genders
  rw [if_pos h]

/-- Dropping the last element and appending one keeps a non-empty list's
length. -/
theorem dropLast_concat_length {α : Type} (l : List α) (x : α) (h : l ≠ []) :
    (l.dropLast ++ [x]).length = l.length := by
  simp only [List.length_append, List.length_dropLast, List.length_cons,
    List.length_nil]
  have : 0 < l.length := List.length_pos.mpr h
  omega

/-- At stack depth ≥ 2 the branch never consults the resolver: group
expansion bails immediately. -/
theorem genderise_branch_irrel
    (resolve resolve' : Artist → GState → Except Unit (Option String) × GState)
    (src : Source) (soup : Soup) (st : GState) (h : 2 ≤ st.stack.length) :
    genderise_branch resolve src soup st = genderise_branch resolve' src soup st := by
  unfold genderise_branch
  by_cases hg : is_group_soup src soup = true
  · simp only [hg, if_true]
    rw [get_group_genders_bail resolve src soup st (by omega),
        get_group_genders_bail resolve' src soup st (by omega)]
  · simp [hg]

/-- At stack depth ≥ 2 a whole source try is independent of the resolver. -/
theorem fromSource_irrel
    (resolve resolve' : Artist → GState → Except Unit (Option String) × GState)
    (w : World) (src : Source) (st : GState) (h : 2 ≤ st.stack.length) :
    genderise_from_source resolve w src st = genderise_from_source resolve' w src st := by
  unfold genderise_from_source
  cases hl : st.stack.getLast? with
  | none => rfl
  | some artist =>
    have hne : st.stack ≠ [] := by
      intro he
      rw [he] at hl
      simp at hl
    dsimp only
    cases hout : (get_artist_soup src w artist).res with
    | error e => rfl
    | ok o =>
      cases o with
      | none => rfl
      | some soup =>
        apply genderise_branch_irrel
        show 2 ≤ (st.stack.dropLast ++ [(get_artist_soup src w artist).artist]).length
        rw [dropLast_concat_length _ _ hne]
        exact h

/-- At stack depth ≥ 2, a branch that yields nothing leaves the state
untouched. -/
theorem genderise_branch_ok_none
    (resolve : Artist → GState → Except Unit (Option String) × GState)
    (src : Source) (soup : Soup) (st st' : GState) (h2 : 2 ≤ st.stack.length)
    (h : genderise_branch resolve src soup st = (Except.ok none, st')) :
    st' = st := by
  unfold genderise_branch at h
  by_cases hg : is_group_soup src soup = true
  · simp only [hg, if_true] at h
    rw [get_group_genders_bail resolve src soup st (by omega)] at h
    dsimp only at h
    rcases hl : st.stack.getLast? with _ | a2
    · have : st.stack = [] := List.getLast?_eq_none_iff.mp hl
      rw [this] at h2
      simp at h2
    · rw [hl] at h
      simp at h
  · simp only [hg, Bool.false_eq_true, if_false] at h
    split at h
    · simp only [Prod.mk.injEq] at h
      exact h.2.symm
    · split at h
      · simp only [Prod.mk.injEq, Except.ok.injEq] at h
        exact h.2.symm
      · simp at h

/-- At stack depth ≥ 2, a source try that yields nothing preserves the
stack length. -/
theorem fromSource_ok_none_stack
    (resolve : Artist → GState → Except Unit (Option String) × GState)
    (w : World) (src : Source) (st st' : GState) (h2 : 2 ≤ st.stack.length)
    (h : genderise_from_source resolve w src st = (Except.ok none, st')) :
    st'.stack.length = st.stack.length := by
  unfold genderise_from_source at h
  have hne : st.stack ≠ [] := by
    intro he
    rw [he] at h2
    simp at h2
  rcases hl : st.stack.getLast? with _ | artist
  · exact absurd (List.getLast?_eq_none_iff.mp hl) hne
  · rw [hl] at h
    dsimp only at h
    rcases hout : (get_artist_soup src w artist).res with e | o
    · rw [hout] at h
      simp at h
    · rw [hout] at h
      cases o with
      | none =>
        simp only [Prod.mk.injEq, Except.ok.injEq] at h
        rw [← h.2]
        exact dropLast_concat_length _ _ hne
      | some soup =>
        have hlen : (st.stack.dropLast ++ [(get_artist_soup src w artist).artist]).length
            = st.stack.length := dropLast_concat_length _ _ hne
        have hb := genderise_branch_ok_none resolve src soup _ st'
          (by simp only [hlen]; exact h2) h
        rw [hb]
        exact hlen

/-- With at least one artist already on the stack, the whole miss path is
independent of the resolver: the pushed artist brings the stack to depth
≥ 2, where group expansion always bails. -/
theorem genderiseMiss_irrel
    (resolve resolve' : Artist → GState → Except Unit (Option String) × GState)
    (w : World) (a : Artist) (st : GState) (h : 1 ≤ st.stack.length) :
    genderiseMiss resolve w a st = genderiseMiss resolve' w a st := by
  unfold genderiseMiss
  dsimp only
  have h2 : 2 ≤ (pushArtist a st).stack.length := by
    simp only [pushArtist, List.length_append, List.length_cons, List.length_nil]
    omega
  rw [fromSource_irrel resolve resolve' w Source.lastfm _ h2]
  rcases hr : genderise_from_source resolve' w Source.lastfm (pushArtist a st) with ⟨res, st2⟩
  cases res with
  | error e => rfl
  | ok o =>
    cases o with
    | some row => rfl
    | none =>
      dsimp only
      have h2' : 2 ≤ st2.stack.length := by
        rw [fromSource_ok_none_stack resolve' w Source.lastfm _ st2 h2 hr]
        exact h2
      rw [fromSource_irrel resolve resolve' w Source.wiki st2 h2']

/-- With at least one artist already on the stack, one `genderise`
unfolding is independent of the resolver. -/
theorem genderiseStep_irrel
    (resolve resolve' : Artist → GState → Except Unit (Option String) × GState)
    (w : World) (a : Artist) (st : GState) (h : 1 ≤ st.stack.length) :
    genderiseStep resolve w a st = genderiseStep resolve' w a st := by
  unfold genderiseStep
  rcases hc : checked_result st.db a.name with _ | r
  · exact genderiseMiss_irrel resolve resolve' w a st h
  · dsimp only
    split
    · exact genderiseMiss_irrel resolve resolve' w a _ h
    · split
      · exact genderiseMiss_irrel resolve resolve' w a _ h
      · rfl

/-- With the stack non-empty, any extra fuel beyond 1 is never consumed:
the depth guard cuts the recursion off. -/
theorem genderiseFuel_ge_one (w : World) (n : Nat) (a : Artist) (st : GState)
    (h : 1 ≤ st.stack.length) :
    genderiseFuel w (n + 1) a st = genderiseFuel w 1 a st :=
  genderiseStep_irrel (genderiseFuel w n) (genderiseFuel w 0) w a st h

/-- Dropping the appended last element recovers the original list. -/
theorem dropLast_concat_eq {α : Type} (l : List α) (x : α) :
    (l ++ [x]).dropLast = l := by
  simp

/-- The member loop preserves the stack when the resolver does. -/
theorem loop_stack
    (resolve : Artist → GState → Except Unit (Option String) × GState)
    (hpres : ∀ m s g s', resolve m s = (Except.ok g, s') → s'.stack = s.stack) :
    ∀ (ms : List Artist) (ix : Nat) (lead : Option String) (names : List String)
      (genders : List (Option String)) (st : GState)
      (r : Option String × List String × List (Option String)) (st' : GState),
      group_members_loop resolve ms ix lead names genders st = (Except.ok r, st') →
      st'.stack = st.stack := by
  intro ms
  induction ms with
  | nil =>
    intro ix lead names genders st r st' h
    simp only [group_members_loop, Prod.mk.injEq] at h
    rw [← h.2]
  | cons m rest ih =>
    intro ix lead names genders st r st' h
    simp only [group_members_loop] at h
    rcases hr : resolve m st with ⟨res, st2⟩
    rw [hr] at h
    cases res with
    | error e => simp at h
    | ok g2 =>
      rw [ih _ _ _ _ _ _ _ h]
      exact hpres m st g2 st2 hr

/-- Group expansion preserves the stack when the resolver does. -/
theorem ggg_ok_stack
    (resolve : Artist → GState → Except Unit (Option String) × GState)
    (hpres : ∀ m s g s', resolve m s = (Except.ok g, s') → s'.stack = s.stack)
    (src : Source) (soup : Soup) (st : GState)
    (p : Option String × Option MemberResults) (st' : GState)
    (h : get_group_genders resolve src soup st = (Except.ok p, st')) :
    st'.stack = st.stack := by
  simp only [get_group_genders] at h
  split at h
  · simp only [Prod.mk.injEq] at h
    rw [← h.2]
  · split at h
    · simp at h
    · rename_i lead names genders st2 heq
      simp only [Prod.mk.injEq] at h
      rw [← h.2]
      exact loop_stack resolve hpres _ _ _ _ _ _ _ _ heq

/-- The branch preserves the stack on non-exceptional outcomes when the
resolver does. -/
theorem branch_ok_stack
    (resolve : Artist → GState → Except Unit (Option String) × GState)
    (hpres : ∀ m s g s', resolve m s = (Except.ok g, s') → s'.stack = s.stack)
    (src : Source) (soup : Soup) (st : GState) (r : Option DBRow) (st' : GState)
    (h : genderise_branch resolve src soup st = (Except.ok r, st')) :
    st'.stack = st.stack := by
  simp only [genderise_branch] at h
  split at h
  · split at h
    · simp at h
    · rename_i lead mopt st2 heq
      split at h
      · simp only [Prod.mk.injEq] at h
        rw [← h.2]
        exact ggg_ok_stack resolve hpres src soup st _ st2 heq
      · simp only [Prod.mk.injEq] at h
        rw [← h.2]
        exact ggg_ok_stack resolve hpres src soup st _ st2 heq
  · split at h
    · simp only [Prod.mk.injEq] at h
      rw [← h.2]
    · split at h
      · simp only [Prod.mk.injEq] at h
        rw [← h.2]
      · simp only [Prod.mk.injEq] at h
        rw [← h.2]
        rfl

/-- A source try preserves the stack frame (all but the replaced top
element) and the stack length, on non-exceptional outcomes. -/
theorem fromSource_ok_stack
    (resolve : Artist → GState → Except Unit (Option String) × GState)
    (hpres : ∀ m s g s', resolve m s = (Except.ok g, s') → s'.stack = s.stack)
    (w : World) (src : Source) (st : GState) (r : Option DBRow) (st' : GState)
    (h : genderise_from_source resolve w src st = (Except.ok r, st')) :
    st'.stack.dropLast = st.stack.dropLast ∧ st'.stack.length = st.stack.length := by
  simp only [genderise_from_source] at h
  split at h
  · simp only [Prod.mk.injEq] at h
    rw [← h.2]
    exact ⟨rfl, rfl⟩
  · rename_i artist hl
    have hne : st.stack ≠ [] := by
      intro he
      rw [he] at hl
      simp at hl
    split at h
    · simp at h
    · simp only [Prod.mk.injEq] at h
      rw [← h.2]
      exact ⟨by rw [dropLast_concat_eq], dropLast_concat_length _ _ hne⟩
    · have hb := branch_ok_stack resolve hpres src _ _ r st' h
      rw [hb]
      exact ⟨by rw [dropLast_concat_eq], dropLast_concat_length _ _ hne⟩

/-- `genderise` restores the stack exactly on every non-exceptional
return, at any fuel. -/
theorem genderiseFuel_stack (w : World) :
    ∀ (n : Nat) (a : Artist) (st : GState) (g : Option String) (st' : GState),
      genderiseFuel w n a st = (Except.ok g, st') → st'.stack = st.stack := by
  intro n
  induction n with
  | zero =>
    intro a st g st' h
    simp only [genderiseFuel, Prod.mk.injEq] at h
    rw [← h.2]
  | succ n ih =>
    have hmiss : ∀ (a : Artist) (std : GState) (g : Option String) (st' : GState),
        genderiseMiss (genderiseFuel w n) w a std = (Except.ok g, st') →
        st'.stack = std.stack := by
      intro a std g st' h
      simp only [genderiseMiss] at h
      rcases hr : genderise_from_source (genderiseFuel w n) w Source.lastfm
          (pushArtist a std) with ⟨res, st2⟩
      rw [hr] at h
      have hpush : (pushArtist a std).stack.dropLast = std.stack := by
        simp only [pushArtist]
        exact dropLast_concat_eq _ _
      cases res with
      | error e => simp [finishMiss] at h
      | ok o =>
        have hst2 := fromSource_ok_stack (genderiseFuel w n) (ih) w Source.lastfm
          (pushArtist a std) o st2 hr
        cases o with
        | some row =>
          simp only [finishMiss, Prod.mk.injEq] at h
          rw [← h.2]
          show st2.stack.dropLast = std.stack
          rw [hst2.1, hpush]
        | none =>
          dsimp only at h
          rcases hw : genderise_from_source (genderiseFuel w n) w Source.wiki st2
            with ⟨res3, st3⟩
          rw [hw] at h
          cases res3 with
          | error e => simp [finishMiss] at h
          | ok o3 =>
            have hst3 := fromSource_ok_stack (genderiseFuel w n) (ih) w Source.wiki
              st2 o3 st3 hw
            cases o3 with
            | some row =>
              simp only [finishMiss, Prod.mk.injEq] at h
              rw [← h.2]
              show st3.stack.dropLast = std.stack
              rw [hst3.1, hst2.1, hpush]
            | none =>
              simp only [finishMiss, Prod.mk.injEq] at h
              rw [← h.2]
              show st3.stack.dropLast = std.stack
              rw [hst3.1, hst2.1, hpush]
    intro a st g st' h
    simp only [genderiseFuel, genderiseStep] at h
    split at h
    · split at h
      · exact hmiss a (delete_artist a.name st) g st' h
      · split at h
        · exact hmiss a (delete_artist a.name st) g st' h
        · simp only [Prod.mk.injEq] at h
          rw [← h.2]
    · exact hmiss a st g st' h

/-- Two resolvers agreeing on all states at the loop's stack depth make
the member loop agree, provided the first preserves the stack. -/
theorem loop_congr
    (resolve resolve' : Artist → GState → Except Unit (Option String) × GState)
    (L : Nat)
    (hpres : ∀ m s g s', resolve m s = (Except.ok g, s') → s'.stack = s.stack)
    (hagree : ∀ m s, s.stack.length = L → resolve m s = resolve' m s) :
    ∀ (ms : List Artist) (ix : Nat) (lead : Option String) (names : List String)
      (genders : List (Option String)) (st : GState), st.stack.length = L →
      group_members_loop resolve ms ix lead names genders st =
        group_members_loop resolve' ms ix lead names genders st := by
  intro ms
  induction ms with
  | nil => intro ix lead names genders st hL; rfl
  | cons m rest ih =>
    intro ix lead names genders st hL
    simp only [group_members_loop]
    rw [hagree m st hL]
    rcases hr : resolve' m st with ⟨res, st2⟩
    cases res with
    | error e => rfl
    | ok g2 =>
      dsimp only
      have hst2 : st2.stack = st.stack :=
        hpres m st g2 st2 (by rw [hagree m st hL]; exact hr)
      exact ih _ _ _ _ st2 (by rw [hst2]; exact hL)

/-- Resolver congruence for group expansion. -/
theorem ggg_congr
    (resolve resolve' : Artist → GState → Except Unit (Option String) × GState)
    (L : Nat)
    (hpres : ∀ m s g s', resolve m s = (Except.ok g, s') → s'.stack = s.stack)
    (hagree : ∀ m s, s.stack.length = L → resolve m s = resolve' m s)
    (src : Source) (soup : Soup) (st : GState) (hL : st.stack.length = L) :
    get_group_genders resolve src soup st = get_group_genders resolve' src soup st := by
  unfold get_group_genders
  split
  · rfl
  · rw [loop_congr resolve resolve' L hpres hagree _ _ _ _ _ st hL]

/-- Resolver congruence for the group-vs-person branch. -/
theorem branch_congr
    (resolve resolve' : Artist → GState → Except Unit (Option String) × GState)
    (L : Nat)
    (hpres : ∀ m s g s', resolve m s = (Except.ok g, s') → s'.stack = s.stack)
    (hagree : ∀ m s, s.stack.length = L → resolve m s = resolve' m s)
    (src : Source) (soup : Soup) (st : GState) (hL : st.stack.length = L) :
    genderise_branch resolve src soup st = genderise_branch resolve' src soup st := by
  unfold genderise_branch
  by_cases hg : is_group_soup src soup = true
  · simp only [hg, if_true]
    rw [ggg_congr resolve resolve' L hpres hagree src soup st hL]
  · simp [hg]

/-- Resolver congruence for a whole source try. -/
theorem fromSource_congr
    (resolve resolve' : Artist → GState → Except Unit (Option String) × GState)
    (L : Nat)
    (hpres : ∀ m s g s', resolve m s = (Except.ok g, s') → s'.stack = s.stack)
    (hagree : ∀ m s, s.stack.length = L → resolve m s = resolve' m s)
    (w : World) (src : Source) (st : GState) (hL : st.stack.length = L) :
    genderise_from_source resolve w src st = genderise_from_source resolve' w src st := by
  unfold genderise_from_source
  cases hl : st.stack.getLast? with
  | none => rfl
  | some artist =>
    have hne : st.stack ≠ [] := by
      intro he
      rw [he] at hl
      simp at hl
    dsimp only
    cases hout : (get_artist_soup src w artist).res with
    | error e => rfl
    | ok o =>
      cases o with
      | none => rfl
      | some soup =>
        apply branch_congr resolve resolve' L hpres hagree
        show (st.stack.dropLast ++ [(get_artist_soup src w artist).artist]).length = L
        rw [dropLast_concat_length _ _ hne]
        exact hL

/-- Resolver congruence for the miss path: the resolvers must agree one
level deeper (the artist is pushed first), and both must preserve the
stack. -/
theorem genderiseMiss_congr
    (resolve resolve' : Artist → GState → Except Unit (Option String) × GState)
    (L : Nat)
    (hpres : ∀ m s g s', resolve m s = (Except.ok g, s') → s'.stack = s.stack)
    (hpres' : ∀ m s g s', resolve' m s = (Except.ok g, s') → s'.stack = s.stack)
    (hagree : ∀ m s, s.stack.length = L + 1 → resolve m s = resolve' m s)
    (w : World) (a : Artist) (st : GState) (hL : st.stack.length = L) :
    genderiseMiss resolve w a st = genderiseMiss resolve' w a st := by
  unfold genderiseMiss
  dsimp only
  have hL1 : (pushArtist a st).stack.length = L + 1 := by
    simp only [pushArtist, List.length_append, List.length_cons, List.length_nil]
    omega
  rw [fromSource_congr resolve resolve' (L + 1) hpres hagree w Source.lastfm _ hL1]
  rcases hr : genderise_from_source resolve' w Source.lastfm (pushArtist a st)
    with ⟨res, st2⟩
  cases res with
  | error e => rfl
  | ok o =>
    cases o with
    | some row => rfl
    | none =>
      dsimp only
      have hst2 := fromSource_ok_stack resolve' hpres' w Source.lastfm
        (pushArtist a st) none st2 hr
      rw [fromSource_congr resolve resolve' (L + 1) hpres hagree w Source.wiki st2
        (by rw [hst2.2]; exact hL1)]

/-- Resolver congruence for one `genderise` unfolding. -/
theorem genderiseStep_congr
    (resolve resolve' : Artist → GState → Except Unit (Option String) × GState)
    (L : Nat)
    (hpres : ∀ m s g s', resolve m s = (Except.ok g, s') → s'.stack = s.stack)
    (hpres' : ∀ m s g s', resolve' m s = (Except.ok g, s') → s'.stack = s.stack)
    (hagree : ∀ m s, s.stack.length = L + 1 → resolve m s = resolve' m s)
    (w : World) (a : Artist) (st : GState) (hL : st.stack.length = L) :
    genderiseStep resolve w a st = genderiseStep resolve' w a st := by
  unfold genderiseStep
  rcases hc : checked_result st.db a.name with _ | r
  · exact genderiseMiss_congr resolve resolve' L hpres hpres' hagree w a st hL
  · dsimp only
    split
    · exact genderiseMiss_congr resolve resolve' L hpres hpres' hagree w a _ hL
    · split
      · exact genderiseMiss_congr resolve resolve' L hpres hpres' hagree w a _ hL
      · rfl

/-- Fuel 2 is enough: the recursion through group members never goes more
than one level deep, so `genderise` at any higher fuel coincides with the
fuel-2 definition — the mutual recursion terminates with depth bound 2. -/
theorem genderiseFuel_stable (w : World) (n : Nat) (a : Artist) (st : GState) :
    genderiseFuel w (n + 2) a st = genderiseFuel w 2 a st := by
  show genderiseStep (genderiseFuel w (n + 1)) w a st =
    genderiseStep (genderiseFuel w 1) w a st
  exact genderiseStep_congr (genderiseFuel w (n + 1)) (genderiseFuel w 1)
    st.stack.length
    (fun m s g s' => genderiseFuel_stack w (n + 1) m s g s')
    (fun m s g s' => genderiseFuel_stack w 1 m s g s')
    (fun m s hs => genderiseFuel_ge_one w n m s (by omega))
    w a st rfl

/-- Claim C7: group expansion recurses at most one level. Whenever the
resolution stack holds more than one artist, `_get_group_genders` bails
out with Python's `(None, [])` — modelled `(none, none)`, which `store`
turns into the empty distribution — without resolving any member (first
conjunct: the state is returned untouched, so no member was visited). As
a consequence the `genderise` / group-expansion mutual recursion never
needs more than 2 levels: every fuel bound ≥ 2 computes the same function
(second conjunct), i.e. the recursion terminates with depth bounded by 2
for every finite member list. -/
theorem c7_group_depth_guard
    (resolve : Artist → GState → Except Unit (Option String) × GState)
    (src : Source) (soup : Soup) (st : GState)
    (w : World) (n : Nat) (a : Artist) (st2 : GState)
    (h : 1 < st.stack.length) :
    get_group_genders resolve src soup st = (Except.ok (none, none), st) ∧
    genderiseFuel w (n + 2) a st2 = genderiseFuel w 2 a st2 :=
  ⟨get_group_genders_bail resolve src soup st h, genderiseFuel_stable w n a st2⟩

/-- C7 witness network. -/
def c7w_world : World := fun _ => FetchResult.exn

/-- C7 witness state: two artists already on the resolution stack. -/
def c7w_stack2 : GState := pushArtist (mkArtist "M") (pushArtist (mkArtist "G") gstate0)

/-- Witness for `c7_group_depth_guard` at a concrete two-deep stack and a
concrete fuel 7 run. -/
theorem c7_group_depth_guard_witness :
    get_group_genders (genderiseFuel c7w_world 1) Source.wiki soup0 c7w_stack2 =
      (Except.ok (none, none), c7w_stack2) ∧
    genderiseFuel c7w_world 7 (mkArtist "Z") gstate0 =
      genderiseFuel c7w_world 2 (mkArtist "Z") gstate0 :=
  c7_group_depth_guard (genderiseFuel c7w_world 1) Source.wiki soup0 c7w_stack2
    c7w_world 5 (mkArtist "Z") gstate0 (by decide)

/-- The member loop only appends to the trace when the resolver does. -/
theorem loop_trace_mono
    (resolve : Artist → GState → Except Unit (Option String) × GState)
    (hres : ∀ m s, ∃ tl, (resolve m s).2.trace = s.trace ++ tl) :
    ∀ (ms : List Artist) (ix : Nat) (lead : Option String) (names : List String)
      (genders : List (Option String)) (st : GState),
      ∃ tl, (group_members_loop resolve ms ix lead names genders st).2.trace =
        st.trace ++ tl := by
  intro ms
  induction ms with
  | nil =>
    intro ix lead names genders st
    exact ⟨[], by simp [group_members_loop]⟩
  | cons m rest ih =>
    intro ix lead names genders st
    simp only [group_members_loop]
    obtain ⟨tl1, h1⟩ := hres m st
    rcases hr : resolve m st with ⟨res, st2⟩
    rw [hr] at h1
    cases res with
    | error e => exact ⟨tl1, h1⟩
    | ok g2 =>
      dsimp only
      obtain ⟨tl2, h2⟩ := ih (ix + 1) (if ix == 0 then g2 else lead)
        (names ++ [m.name]) (genders ++ [g2]) st2
      exact ⟨tl1 ++ tl2, by rw [h2, h1, List.append_assoc]⟩

/-- Group expansion only appends to the trace when the resolver does. -/
theorem ggg_trace_mono
    (resolve : Artist → GState → Except Unit (Option String) × GState)
    (hres : ∀ m s, ∃ tl, (resolve m s).2.trace = s.trace ++ tl)
    (src : Source) (soup : Soup) (st : GState) :
    ∃ tl, (get_group_genders resolve src soup st).2.trace = st.trace ++ tl := by
  unfold get_group_genders
  split
  · exact ⟨[], by simp⟩
  · obtain ⟨tl, h⟩ := loop_trace_mono resolve hres (get_group_members src soup)
      0 none [] [] st
    rcases hr : group_members_loop resolve (get_group_members src soup) 0 none [] [] st
      with ⟨res, st2⟩
    rw [hr] at h
    cases res with
    | error e => exact ⟨tl, h⟩
    | ok p => exact ⟨tl, by rcases p with ⟨lead, names, genders⟩; exact h⟩

/-- The branch only appends to the trace when the resolver does. -/
theorem branch_trace_mono
    (resolve : Artist → GState → Except Unit (Option String) × GState)
    (hres : ∀ m s, ∃ tl, (resolve m s).2.trace = s.trace ++ tl)
    (src : Source) (soup : Soup) (st : GState) :
    ∃ tl, (genderise_branch resolve src soup st).2.trace = st.trace ++ tl := by
  unfold genderise_branch
  by_cases hg : is_group_soup src soup = true
  · simp only [hg, if_true]
    obtain ⟨tl, h⟩ := ggg_trace_mono resolve hres src soup st
    rcases hr : get_group_genders resolve src soup st with ⟨res, st2⟩
    rw [hr] at h
    cases res with
    | error e => exact ⟨tl, h⟩
    | ok p =>
      rcases p with ⟨lead, mopt⟩
      dsimp only
      cases st2.stack.getLast? with
      | none => exact ⟨tl, h⟩
      | some a2 => exact ⟨tl, h⟩
  · simp only [hg, Bool.false_eq_true, if_false]
    split
    · exact ⟨[], by simp⟩
    · cases st.stack.getLast? with
      | none => exact ⟨[], by simp⟩
      | some a2 => exact ⟨[], by simp [storeRow]⟩

/-- A source try with a non-empty stack appends exactly its own
source-attempt event (tagged with the stack depth), then its fetches and
whatever its member resolutions append. -/
theorem fromSource_trace_shape
    (resolve : Artist → GState → Except Unit (Option String) × GState)
    (hres : ∀ m s, ∃ tl, (resolve m s).2.trace = s.trace ++ tl)
    (w : World) (src : Source) (st : GState) (artist : Artist)
    (hl : st.stack.getLast? = some artist) :
    ∃ tl, (genderise_from_source resolve w src st).2.trace =
      st.trace ++ Event.sourceTry st.stack.length src :: tl := by
  unfold genderise_from_source
  rw [hl]
  dsimp only
  cases hout : (get_artist_soup src w artist).res with
  | error e => exact ⟨(get_artist_soup src w artist).fetched.map Event.fetch, rfl⟩
  | ok o =>
    cases o with
    | none => exact ⟨(get_artist_soup src w artist).fetched.map Event.fetch, rfl⟩
    | some soup =>
      obtain ⟨tl, h⟩ := branch_trace_mono resolve hres src soup
        { st with
          stack := st.stack.dropLast ++ [(get_artist_soup src w artist).artist]
          trace := st.trace ++ Event.sourceTry st.stack.length src ::
            (get_artist_soup src w artist).fetched.map Event.fetch }
      refine ⟨(get_artist_soup src w artist).fetched.map Event.fetch ++ tl, ?_⟩
      rw [h]
      simp

/-- A source try only appends to the trace. -/
theorem fromSource_trace_mono
    (resolve : Artist → GState → Except Unit (Option String) × GState)
    (hres : ∀ m s, ∃ tl, (resolve m s).2.trace = s.trace ++ tl)
    (w : World) (src : Source) (st : GState) :
    ∃ tl, (genderise_from_source resolve w src st).2.trace = st.trace ++ tl := by
  cases hl : st.stack.getLast? with
  | none =>
    refine ⟨[], ?_⟩
    unfold genderise_from_source
    rw [hl]
    simp
  | some artist =>
    obtain ⟨tl, h⟩ := fromSource_trace_shape resolve hres w src st artist hl
    exact ⟨Event.sourceTry st.stack.length src :: tl, h⟩

/-- The miss path only appends to the trace. -/
theorem genderiseMiss_trace_mono
    (resolve : Artist → GState → Except Unit (Option String) × GState)
    (hres : ∀ m s, ∃ tl, (resolve m s).2.trace = s.trace ++ tl)
    (w : World) (a : Artist) (st : GState) :
    ∃ tl, (genderiseMiss resolve w a st).2.trace = st.trace ++ tl := by
  unfold genderiseMiss
  dsimp only
  obtain ⟨tl1, h1⟩ := fromSource_trace_mono resolve hres w Source.lastfm (pushArtist a st)
  rcases hr : genderise_from_source resolve w Source.lastfm (pushArtist a st)
    with ⟨res, st2⟩
  rw [hr] at h1
  cases res with
  | error e => exact ⟨tl1, by simpa [pushArtist] using h1⟩
  | ok o =>
    cases o with
    | some row => exact ⟨tl1, by simpa [finishMiss, pushArtist] using h1⟩
    | none =>
      dsimp only
      obtain ⟨tl2, h2⟩ := fromSource_trace_mono resolve hres w Source.wiki st2
      rcases hw : genderise_from_source resolve w Source.wiki st2 with ⟨res3, st3⟩
      rw [hw] at h2
      dsimp only at h1 h2
      have h1s : st2.trace = st.trace ++ tl1 := by simpa [pushArtist] using h1
      cases res3 with
      | error e => exact ⟨tl1 ++ tl2, by simp [finishMiss, h2, h1s, List.append_assoc]⟩
      | ok o3 =>
        cases o3 with
        | some row =>
          exact ⟨tl1 ++ tl2, by simp [finishMiss, h2, h1s, List.append_assoc]⟩
        | none =>
          exact ⟨tl1 ++ tl2, by simp [finishMiss, h2, h1s, List.append_assoc]⟩

/-- `genderise` only appends to the trace, at any fuel. -/
theorem genderiseFuel_trace_mono (w : World) :
    ∀ (n : Nat) (a : Artist) (st : GState),
      ∃ tl, ((genderiseFuel w n a st).2).trace = st.trace ++ tl := by
  intro n
  induction n with
  | zero => intro a st; exact ⟨[], by simp [genderiseFuel]⟩
  | succ n ih =>
    intro a st
    show ∃ tl, (genderiseStep (genderiseFuel w n) w a st).2.trace = st.trace ++ tl
    unfold genderiseStep
    rcases hc : checked_result st.db a.name with _ | r
    · exact genderiseMiss_trace_mono (genderiseFuel w n)
        (fun m s => ih m s) w a st
    · dsimp only
      split
      · exact genderiseMiss_trace_mono (genderiseFuel w n) (fun m s => ih m s) w a _
      · split
        · exact genderiseMiss_trace_mono (genderiseFuel w n) (fun m s => ih m s) w a _
        · exact ⟨[], by simp⟩

/-- Taking one past a list's length from `l ++ x :: tl` yields `l ++ [x]`. -/
theorem take_len_succ_append {α : Type} (l : List α) (x : α) (tl : List α) :
    (l ++ x :: tl).take (l.length + 1) = l ++ [x] := by
  induction l with
  | nil => simp
  | cons a t ih => simp [List.take_succ_cons, ih]

/-- Claim C1 (amended): on a cache miss, the sources are tried in the
fixed order SECONDARY (Last.fm) first, then primary (Wikipedia), stopping
at the first try whose result is non-none — `sources.pop()` removes the
end of `['wiki', 'lastfm']`. The first conjunct: the outcome of
`genderise` is the Last.fm try's result when it is non-none, and otherwise
the Wikipedia try run on the state the Last.fm try left. The second
conjunct: the first event the run records past the prior trace is the
Last.fm source attempt, at the pushed stack depth. -/
theorem c1_amended_source_order (w : World) (n : Nat) (a : Artist) (st : GState)
    (hmiss : checked_result st.db a.name = none)
    (r1 : Option DBRow) (st2 : GState)
    (h1 : genderise_from_source (genderiseFuel w n) w Source.lastfm (pushArtist a st)
        = (Except.ok r1, st2)) :
    genderiseFuel w (n + 1) a st =
      (if r1.isSome then finishMiss a (Except.ok r1, st2)
       else finishMiss a (genderise_from_source (genderiseFuel w n) w Source.wiki st2)) ∧
    st2.trace.take (st.trace.length + 1) =
      st.trace ++ [Event.sourceTry (st.stack.length + 1) Source.lastfm] := by
  constructor
  · show genderiseStep (genderiseFuel w n) w a st = _
    unfold genderiseStep
    rw [hmiss]
    unfold genderiseMiss
    dsimp only
    rw [h1]
    cases r1 with
    | none => rfl
    | some row => rfl
  · have hl : (pushArtist a st).stack.getLast? = some a := by
      simp [pushArtist]
    obtain ⟨tl, htl⟩ := fromSource_trace_shape (genderiseFuel w n)
      (fun m s => genderiseFuel_trace_mono w n m s) w Source.lastfm
      (pushArtist a st) a hl
    rw [h1] at htl
    dsimp only at htl
    have htl' : st2.trace = st.trace ++
        Event.sourceTry (st.stack.length + 1) Source.lastfm :: tl := by
      simpa [pushArtist] using htl
    rw [htl']
    exact take_len_succ_append _ _ _

/-- C1 witness artist and world: a Last.fm-only artist. -/
def c1w_artist : Artist := mkArtist "Lo"

/-- C1 witness network: only the Last.fm page exists. -/
def c1w_world : World := fun url =>
  if url == "https://www.last.fm/music/Lo/+wiki"
  then .ok 200 { soup0 with wiki_content_paras := ["soon she toured"] }
  else .exn

/-- The result of the C1 witness Last.fm try. -/
def c1w_try : Except Unit (Option DBRow) × GState :=
  genderise_from_source (genderiseFuel c1w_world 1) c1w_world Source.lastfm
    (pushArtist c1w_artist gstate0)

/-- The Last.fm row of the C1 witness try. -/
def c1w_r1 : Option DBRow :=
  match c1w_try.1 with
  | .ok r => r
  | .error _ => none

/-- Witness for `c1_amended_source_order` on a concrete cold-cache run. -/
theorem c1_amended_source_order_witness :
    genderiseFuel c1w_world 2 c1w_artist gstate0 =
      (if c1w_r1.isSome then finishMiss c1w_artist (Except.ok c1w_r1, c1w_try.2)
       else finishMiss c1w_artist
         (genderise_from_source (genderiseFuel c1w_world 1) c1w_world Source.wiki
           c1w_try.2)) ∧
    c1w_try.2.trace.take (gstate0.trace.length + 1) =
      gstate0.trace ++ [Event.sourceTry (gstate0.stack.length + 1) Source.lastfm] :=
  c1_amended_source_order c1w_world 1 c1w_artist gstate0 (by decide) c1w_r1 c1w_try.2
    (by decide)

/-- Claim C4 (amended): a source that yields nothing — a secondary 404, an
empty biography, or a page failing validation — is non-fatal. When both
source tries complete with no result, `genderise` ends with an explicit
unresolved outcome: it returns no label and reports the unresolved row
(first conjunct). And whenever an artist's resolution completes without a
raised exception, the batch loop proceeds to the next artist after
checkpointing (second conjunct). Only a RAISED fetch exception aborts the
batch — the unamended claim fails there, see the counterexample. -/
theorem c4_amended_nonfatal_sources (w : World) (n : Nat) (a : Artist) (st : GState)
    (hmiss : checked_result st.db a.name = none)
    (st2 st3 : GState)
    (h1 : genderise_from_source (genderiseFuel w n) w Source.lastfm (pushArtist a st)
        = (Except.ok none, st2))
    (h2 : genderise_from_source (genderiseFuel w n) w Source.wiki st2
        = (Except.ok none, st3))
    (offset ix : Nat) (rest : List Artist) (g : Option String) (st' : GState)
    (hok : genderise w a st = (Except.ok g, st')) :
    genderiseFuel w (n + 1) a st =
      (Except.ok none,
       { st3 with report := add_to_report st3.report (unresolvedRow a)
                  stack := st3.stack.dropLast }) ∧
    genderise_batch_loop w none offset (a :: rest) ix st =
      genderise_batch_loop w none offset rest (ix + 1)
        (set_offset (offset + ix + 1) st') := by
  constructor
  · show genderiseStep (genderiseFuel w n) w a st = _
    unfold genderiseStep
    rw [hmiss]
    unfold genderiseMiss
    dsimp only
    rw [h1]
    dsimp only
    rw [h2]
    rfl
  · conv_lhs => unfold genderise_batch_loop
    rw [if_neg (by simp), hok]

/-- C4 witness artist: Last.fm 404, Wikipedia page fails validation. -/
def c4w_artist : Artist := mkArtist "Nx"

/-- C4 witness network. -/
def c4w_world : World := fun url =>
  if url == "https://www.last.fm/music/Nx/+wiki" then .ok 404 soup0
  else if url == "https://en.wikipedia.org/wiki/Nx" then .ok 200 soup0
  else .exn

/-- The state after the C4 witness Last.fm try. -/
def c4w_st2 : GState :=
  (genderise_from_source (genderiseFuel c4w_world 1) c4w_world Source.lastfm
    (pushArtist c4w_artist gstate0)).2

/-- The state after the C4 witness Wikipedia try. -/
def c4w_st3 : GState :=
  (genderise_from_source (genderiseFuel c4w_world 1) c4w_world Source.wiki c4w_st2).2

/-- Witness for `c4_amended_nonfatal_sources`: both sources yield nothing
for `c4w_artist`, the artist ends unresolved, and the batch loop moves on. -/
theorem c4_amended_nonfatal_sources_witness :
    genderiseFuel c4w_world 2 c4w_artist gstate0 =
      (Except.ok none,
       { c4w_st3 with report := add_to_report c4w_st3.report (unresolvedRow c4w_artist)
                      stack := c4w_st3.stack.dropLast }) ∧
    genderise_batch_loop c4w_world none 0 (c4w_artist :: [mkArtist "After"]) 0 gstate0 =
      genderise_batch_loop c4w_world none 0 [mkArtist "After"] 1
        (set_offset 1 (genderise c4w_world c4w_artist gstate0).2) :=
  c4_amended_nonfatal_sources c4w_world 1 c4w_artist gstate0 (by decide)
    c4w_st2 c4w_st3 (by decide) (by decide) 0 0 [mkArtist "After"]
    (genderise c4w_world c4w_artist gstate0).1.toOption.join
    (genderise c4w_world c4w_artist gstate0).2 (by decide)

/-- The member loop never touches the offset log when the resolver does
not. -/
theorem loop_offsets
    (resolve : Artist → GState → Except Unit (Option String) × GState)
    (hres : ∀ m s, ((resolve m s).2).offsets = s.offsets) :
    ∀ (ms : List Artist) (ix : Nat) (lead : Option String) (names : List String)
      (genders : List (Option String)) (st : GState),
      ((group_members_loop resolve ms ix lead names genders st).2).offsets = st.offsets := by
  intro ms
  induction ms with
  | nil => intro ix lead names genders st; rfl
  | cons m rest ih =>
    intro ix lead names genders st
    simp only [group_members_loop]
    have h1 := hres m st
    rcases hr : resolve m st with ⟨res, st2⟩
    rw [hr] at h1
    cases res with
    | error e => exact h1
    | ok g2 =>
      dsimp only
      rw [ih _ _ _ _ st2]
      exact h1

/-- Group expansion never touches the offset log. -/
theorem ggg_offsets
    (resolve : Artist → GState → Except Unit (Option String) × GState)
    (hres : ∀ m s, ((resolve m s).2).offsets = s.offsets)
    (src : Source) (soup : Soup) (st : GState) :
    ((get_group_genders resolve src soup st).2).offsets = st.offsets := by
  unfold get_group_genders
  split
  · rfl
  · have h := loop_offsets resolve hres (get_group_members src soup) 0 none [] [] st
    rcases hr : group_members_loop resolve (get_group_members src soup) 0 none [] [] st
      with ⟨res, st2⟩
    rw [hr] at h
    cases res with
    | error e => exact h
    | ok p => rcases p with ⟨lead, names, genders⟩; exact h

/-- The branch never touches the offset log. -/
theorem branch_offsets
    (resolve : Artist → GState → Except Unit (Option String) × GState)
    (hres : ∀ m s, ((resolve m s).2).offsets = s.offsets)
    (src : Source) (soup : Soup) (st : GState) :
    ((genderise_branch resolve src soup st).2).offsets = st.offsets := by
  unfold genderise_branch
  by_cases hg : is_group_soup src soup = true
  · simp only [hg, if_true]
    have h := ggg_offsets resolve hres src soup st
    rcases hr : get_group_genders resolve src soup st with ⟨res, st2⟩
    rw [hr] at h
    cases res with
    | error e => exact h
    | ok p =>
      rcases p with ⟨lead, mopt⟩
      dsimp only
      cases st2.stack.getLast? with
      | none => exact h
      | some a2 => exact h
  · simp only [hg, Bool.false_eq_true, if_false]
    split
    · rfl
    · cases st.stack.getLast? with
      | none => rfl
      | some a2 => rfl

/-- A source try never touches the offset log. -/
theorem fromSource_offsets
    (resolve : Artist → GState → Except Unit (Option String) × GState)
    (hres : ∀ m s, ((resolve m s).2).offsets = s.offsets)
    (w : World) (src : Source) (st : GState) :
    ((genderise_from_source resolve w src st).2).offsets = st.offsets := by
  unfold genderise_from_source
  cases hl : st.stack.getLast? with
  | none => rfl
  | some artist =>
    dsimp only
    cases hout : (get_artist_soup src w artist).res with
    | error e => rfl
    | ok o =>
      cases o with
      | none => rfl
      | some soup => exact branch_offsets resolve hres src soup _

/-- The miss path never touches the offset log. -/
theorem genderiseMiss_offsets
    (resolve : Artist → GState → Except Unit (Option String) × GState)
    (hres : ∀ m s, ((resolve m s).2).offsets = s.offsets)
    (w : World) (a : Artist) (st : GState) :
    ((genderiseMiss resolve w a st).2).offsets = st.offsets := by
  unfold genderiseMiss
  dsimp only
  have h1 := fromSource_offsets resolve hres w Source.lastfm (pushArtist a st)
  rcases hr : genderise_from_source resolve w Source.lastfm (pushArtist a st)
    with ⟨res, st2⟩
  rw [hr] at h1
  cases res with
  | error e => exact h1
  | ok o =>
    cases o with
    | some row => exact h1
    | none =>
      dsimp only
      have h2 := fromSource_offsets resolve hres w Source.wiki st2
      rcases hw : genderise_from_source resolve w Source.wiki st2 with ⟨res3, st3⟩
      rw [hw] at h2
      cases res3 with
      | error e => exact h2.trans h1
      | ok o3 =>
        cases o3 with
        | some row => exact h2.trans h1
        | none => exact h2.trans h1

/-- `genderise` never touches the offset log (it only reads it). -/
theorem genderiseFuel_offsets (w : World) :
    ∀ (n : Nat) (a : Artist) (st : GState),
      ((genderiseFuel w n a st).2).offsets = st.offsets := by
  intro n
  induction n with
  | zero => intro a st; rfl
  | succ n ih =>
    intro a st
    show ((genderiseStep (genderiseFuel w n) w a st).2).offsets = st.offsets
    unfold genderiseStep
    rcases hc : checked_result st.db a.name with _ | r
    · exact genderiseMiss_offsets (genderiseFuel w n) (fun m s => ih m s) w a st
    · dsimp only
      split
      · exact genderiseMiss_offsets (genderiseFuel w n) (fun m s => ih m s) w a _
      · split
        · exact genderiseMiss_offsets (genderiseFuel w n) (fun m s => ih m s) w a _
        · rfl

/-- A batch run that completes appends, in chronological order, the
checkpoint `offset + ix + j + 1` for every artist j it processed. -/
theorem batch_loop_done_offsets (w : World) (offset : Nat) :
    ∀ (l : List Artist) (ix : Nat) (st : GState),
      (genderise_batch_loop w none offset l ix st).1 = BatchEnd.done →
      ((genderise_batch_loop w none offset l ix st).2.offsets).reverse =
        st.offsets.reverse ++ (List.range l.length).map (fun j => offset + ix + j + 1) := by
  intro l
  induction l with
  | nil => intro ix st _; simp [genderise_batch_loop]
  | cons a rest ih =>
    intro ix st hdone
    simp only [genderise_batch_loop, if_neg (by simp : ¬((none : Option Nat) == some ix) = true)] at hdone ⊢
    rcases hr : genderise w a st with ⟨res, st2⟩
    rw [hr] at hdone
    have hoff : st2.offsets = st.offsets := by
      have h0 := genderiseFuel_offsets w 2 a st
      rw [show genderiseFuel w 2 a st = (res, st2) from hr] at h0
      exact h0
    cases res with
    | error e => simp at hdone
    | ok g =>
      dsimp only at hdone ⊢
      rw [ih (ix + 1) (set_offset (offset + ix + 1) st2) hdone]
      simp only [set_offset, List.reverse_cons, hoff]
      simp only [List.length_cons]
      rw [List.range_succ_eq_map]
      simp only [List.map_cons, List.map_map]
      rw [List.append_assoc]
      simp only [List.singleton_append, Nat.add_zero]
      congr 1
      congr 1
      apply List.map_congr_left
      intro j _
      simp only [Function.comp_apply]
      omega

/-- Interrupting a batch (that would otherwise complete) while artist
`ix + j` is being processed re-raises after persisting `offset + ix + j`. -/
theorem batch_loop_interrupt (w : World) (offset : Nat) :
    ∀ (l : List Artist) (ix j : Nat) (st : GState),
      (genderise_batch_loop w none offset l ix st).1 = BatchEnd.done →
      j < l.length →
      (genderise_batch_loop w (some (ix + j)) offset l ix st).1 = BatchEnd.interrupted ∧
      get_offset (genderise_batch_loop w (some (ix + j)) offset l ix st).2 =
        offset + ix + j := by
  intro l
  induction l with
  | nil => intro ix j st _ hj; simp at hj
  | cons a rest ih =>
    intro ix j st hdone hj
    cases j with
    | zero =>
      simp only [genderise_batch_loop, Nat.add_zero]
      rw [if_pos (by simp)]
      exact ⟨rfl, by simp [get_offset, set_offset]⟩
    | succ j =>
      simp only [genderise_batch_loop,
        if_neg (by simp : ¬((none : Option Nat) == some ix) = true)] at hdone
      have hne : ¬((some (ix + (j + 1)) : Option Nat) == some ix) = true := by
        simp
      simp only [genderise_batch_loop, if_neg hne]
      rcases hr : genderise w a st with ⟨res, st2⟩
      rw [hr] at hdone
      cases res with
      | error e => simp at hdone
      | ok g =>
        dsimp only at hdone ⊢
        have := ih (ix + 1) j (set_offset (offset + ix + 1) st2) hdone
          (by simpa using hj)
        have harith : ix + (j + 1) = (ix + 1) + j := by omega
        rw [harith]
        refine ⟨this.1, ?_⟩
        rw [this.2]
        omega

/-- The head of a dropped list is the element at the drop index. -/
theorem head_drop_eq_getElem {α : Type} (l : List α) (n : Nat) :
    (l.drop n).head? = l[n]? := by
  have h0 : (l.drop n).head? = (l.drop n)[0]? := by cases l.drop n <;> simp
  rw [h0, List.getElem?_drop, Nat.add_zero]

/-- Claim C6: batch checkpointing and resumption. For a batch fetched at
the stored offset: (1) a completed run appends, chronologically, the
checkpoint `offset + index + 1` after every single artist; (2) an
explicit interrupt while processing artist index k re-raises as a
cancellation after persisting exactly `offset + k`; (3) hence the latest
stored offset is `offset + k`, so (4) the next batch fetch resumes with
the catalog window starting at global index `offset + k` — whose first
artist (5) is exactly the interrupted artist k of the original batch:
artists 0..k-1 are not re-fetched and artist k is not skipped. -/
theorem c6_checkpoint_resume (w : World) (catalog : List Artist) (batchLimit : Nat)
    (st : GState) (k : Nat) (batch : List Artist)
    (hbatch : batch = (set_artist_batch_from_spotify_search catalog batchLimit none st).1)
    (hdone : (genderise_batch w none batch st).1 = BatchEnd.done)
    (hk : k < batch.length) :
    ((genderise_batch w none batch st).2.offsets).reverse =
      st.offsets.reverse ++
        (List.range batch.length).map (fun j => get_offset st + j + 1) ∧
    (genderise_batch w (some k) batch st).1 = BatchEnd.interrupted ∧
    get_offset (genderise_batch w (some k) batch st).2 = get_offset st + k ∧
    (set_artist_batch_from_spotify_search catalog batchLimit none
        (genderise_batch w (some k) batch st).2).1 =
      (catalog.drop (get_offset st + k)).take (min 50 batchLimit) ∧
    (catalog.drop (get_offset st + k)).head? = batch[k]? := by
  simp only [genderise_batch]
  simp only [genderise_batch] at hdone
  have hint := batch_loop_interrupt w (get_offset st) batch 0 k st hdone hk
  have hoffs := batch_loop_done_offsets w (get_offset st) batch 0 st hdone
  have hko : get_offset (genderise_batch_loop w (some (0 + k)) (get_offset st) batch 0 st).2
      = get_offset st + k := by
    have := hint.2
    omega
  rw [Nat.zero_add] at hint hko
  refine ⟨?_, hint.1, hko, ?_, ?_⟩
  · rw [hoffs]
    simp
  · simp only [set_artist_batch_from_spotify_search]
    rw [hko]
  · have hlen : batch.length ≤ min 50 batchLimit := by
      rw [hbatch]
      simp [set_artist_batch_from_spotify_search]
    have hkt : k < min 50 batchLimit := lt_of_lt_of_le hk hlen
    rw [hbatch]
    show (catalog.drop (get_offset st + k)).head? =
      ((catalog.drop (get_offset st)).take (min 50 batchLimit))[k]?
    rw [List.getElem?_take, if_pos hkt, List.getElem?_drop]
    exact head_drop_eq_getElem catalog (get_offset st + k)

/-- C6 witness network: Last.fm 404s and structureless wiki pages, so every
artist resolves (unresolved) without error. -/
def c6w_world : World := fun _ => FetchResult.ok 404 soup0

/-- C6 witness catalog. -/
def c6w_catalog : List Artist := [mkArtist "X", mkArtist "Y", mkArtist "Z"]

/-- C6 witness batch: the batch-limit-2 window of the catalog at offset 0. -/
def c6w_batch : List Artist := [mkArtist "X", mkArtist "Y"]

/-- Witness for `c6_checkpoint_resume` with batch limit 2 and an interrupt
while processing artist index 1. -/
theorem c6_checkpoint_resume_witness :
    ((genderise_batch c6w_world none c6w_batch gstate0).2.offsets).reverse =
      gstate0.offsets.reverse ++
        (List.range c6w_batch.length).map (fun j => get_offset gstate0 + j + 1) ∧
    (genderise_batch c6w_world (some 1) c6w_batch gstate0).1 = BatchEnd.interrupted ∧
    get_offset (genderise_batch c6w_world (some 1) c6w_batch gstate0).2 =
      get_offset gstate0 + 1 ∧
    (set_artist_batch_from_spotify_search c6w_catalog 2 none
        (genderise_batch c6w_world (some 1) c6w_batch gstate0).2).1 =
      (c6w_catalog.drop (get_offset gstate0 + 1)).take (min 50 2) ∧
    (c6w_catalog.drop (get_offset gstate0 + 1)).head? = c6w_batch[1]? :=
  c6_checkpoint_resume c6w_world c6w_catalog 2 gstate0 1 c6w_batch (by decide)
    (by decide) (by decide)
